import Mathlib

/-!
# Verification of the SAMii Milestone Tracker webhook core (src/index.ts)

Shallow embedding of the Cloudflare-Worker payment-webhook program
(`src/index.ts`, hardened variant): the KV-store helpers (`addCents`,
`readGrossAud`, `markProcessed`), the Stripe webhook handler
(`handleStripeWebhook`), and the signature verifier
(`verifyStripeSignatureAsync` / `hmacSHA256` / `timingSafeEqualHex`).

Machine arithmetic is modelled with `Nat`/`Int`/`ℚ` and explicit reductions
modulo `2^32`; the WebCrypto HMAC-SHA-256 is implemented concretely
(FIPS 180-4 / RFC 2104) over UTF-8 bytes, as `TextEncoder`/`crypto.subtle`
produce; fallible KV operations return `Except`.
-/

/-! ## Bytes, hex, SHA-256, HMAC-SHA-256

`crypto.subtle.sign("HMAC", key, data)` with SHA-256, over the UTF-8
encodings of the secret and the data, then rendered as lowercase hex by
`Array.from(bytes).map(b => b.toString(16).padStart(2, "0")).join("")`.
-/

/-- UTF-8 encoding of one character, as byte values (what `TextEncoder` emits). -/
def utf8EncodeChar (c : Char) : List Nat :=
  let n := c.toNat
  if n < 128 then [n]
  else if n < 2048 then [192 + n / 64, 128 + n % 64]
  else if n < 65536 then [224 + n / 4096, 128 + n / 64 % 64, 128 + n % 64]
  else [240 + n / 262144, 128 + n / 4096 % 64, 128 + n / 64 % 64, 128 + n % 64]

/-- UTF-8 bytes of a string (the `TextEncoder.encode` of the source). -/
def strBytes (s : String) : List Nat :=
  s.toList.flatMap utf8EncodeChar

/-- Right rotation of a 32-bit word held in a `Nat`. -/
def rotr32 (x n : Nat) : Nat :=
  ((x >>> n) ||| (x <<< (32 - n))) % 4294967296

/-- SHA-256 round constants (FIPS 180-4 §4.2.2). -/
def sha256K : List Nat :=
  [1116352408, 1899447441, 3049323471, 3921009573, 961987163, 1508970993, 2453635748, 2870763221,
   3624381080, 310598401, 607225278, 1426881987, 1925078388, 2162078206, 2614888103, 3248222580,
   3835390401, 4022224774, 264347078, 604807628, 770255983, 1249150122, 1555081692, 1996064986,
   2554220882, 2821834349, 2952996808, 3210313671, 3336571891, 3584528711, 113926993, 338241895,
   666307205, 773529912, 1294757372, 1396182291, 1695183700, 1986661051, 2177026350, 2456956037,
   2730485921, 2820302411, 3259730800, 3345764771, 3516065817, 3600352804, 4094571909, 275423344,
   430227734, 506948616, 659060556, 883997877, 958139571, 1322822218, 1537002063, 1747873779,
   1955562222, 2024104815, 2227730452, 2361852424, 2428436474, 2756734187, 3204031479, 3329325298]

/-- SHA-256 initial hash value (FIPS 180-4 §5.3.3). -/
def sha256H0 : List Nat :=
  [1779033703, 3144134277, 1013904242, 2773480762, 1359893119, 2600822924, 528734635, 1541459225]

/-- Group bytes into big-endian 32-bit words. -/
def bytesToWords : List Nat → List Nat
  | b0 :: b1 :: b2 :: b3 :: rest =>
      (((b0 * 256 + b1) * 256 + b2) * 256 + b3) :: bytesToWords rest
  | _ => []

/-- Big-endian byte rendering of `n` on `k` bytes. -/
def toBytesBE : Nat → Nat → List Nat
  | 0, _ => []
  | k + 1, n => toBytesBE k (n / 256) ++ [n % 256]

def smallSigma0 (x : Nat) : Nat := rotr32 x 7 ^^^ rotr32 x 18 ^^^ (x >>> 3)

def smallSigma1 (x : Nat) : Nat := rotr32 x 17 ^^^ rotr32 x 19 ^^^ (x >>> 10)

def bigSigma0 (x : Nat) : Nat := rotr32 x 2 ^^^ rotr32 x 13 ^^^ rotr32 x 22

def bigSigma1 (x : Nat) : Nat := rotr32 x 6 ^^^ rotr32 x 11 ^^^ rotr32 x 25

/-- Message-schedule extension, carried with the most recent word first:
prepend `n` further words to the reversed schedule `acc`. -/
def sha256ExtendRev : Nat → List Nat → List Nat
  | 0, acc => acc
  | n + 1, acc =>
      let w := (smallSigma1 (acc.getD 1 0) + acc.getD 6 0 +
                smallSigma0 (acc.getD 14 0) + acc.getD 15 0) % 4294967296
      sha256ExtendRev n (w :: acc)

/-- Working variables of the compression loop. -/
structure SHA256State where
  a : Nat
  b : Nat
  c : Nat
  d : Nat
  e : Nat
  f : Nat
  g : Nat
  h : Nat

/-- One round of the SHA-256 compression loop (`kw` = schedule word paired
with its round constant). -/
def sha256Round (s : SHA256State) (kw : Nat × Nat) : SHA256State :=
  let ch := (s.e &&& s.f) ^^^ ((s.e ^^^ 4294967295) &&& s.g)
  let maj := (s.a &&& s.b) ^^^ (s.a &&& s.c) ^^^ (s.b &&& s.c)
  let t1 := (s.h + bigSigma1 s.e + ch + kw.2 + kw.1) % 4294967296
  let t2 := (bigSigma0 s.a + maj) % 4294967296
  ⟨(t1 + t2) % 4294967296, s.a, s.b, s.c, (s.d + t1) % 4294967296, s.e, s.f, s.g⟩

/-- Compress one 64-byte block into the running hash `H` (8 words). -/
def sha256Compress (H : List Nat) (block : List Nat) : List Nat :=
  let w16 := bytesToWords block
  let W := (sha256ExtendRev 48 w16.reverse).reverse
  let init : SHA256State :=
    ⟨H.getD 0 0, H.getD 1 0, H.getD 2 0, H.getD 3 0,
     H.getD 4 0, H.getD 5 0, H.getD 6 0, H.getD 7 0⟩
  let fin := (W.zip sha256K).foldl sha256Round init
  List.zipWith (fun x y => (x + y) % 4294967296) H
    [fin.a, fin.b, fin.c, fin.d, fin.e, fin.f, fin.g, fin.h]

/-- Iterate the compression function over the 64-byte blocks of `msg`.
Structural recursion on a fuel argument (each step consumes at least one
byte, so `msg.length` fuel always suffices); fuel keeps the definition
kernel-reducible. -/
def sha256BlocksGo : Nat → List Nat → List Nat → List Nat
  | 0, H, _ => H
  | _, H, [] => H
  | fuel + 1, H, x :: rest =>
      sha256BlocksGo fuel (sha256Compress H ((x :: rest).take 64)) (rest.drop 63)

def sha256Blocks (H : List Nat) (msg : List Nat) : List Nat :=
  sha256BlocksGo msg.length H msg

/-- SHA-256 padding: a `128` byte, zeros to 56 mod 64, then the bit length on 8
big-endian bytes. -/
def sha256Pad (msg : List Nat) : List Nat :=
  let zeros := (120 - (msg.length + 1) % 64) % 64
  msg ++ 128 :: List.replicate zeros 0 ++ toBytesBE 8 (8 * msg.length)

/-- SHA-256 digest (32 bytes) of a byte list. -/
def sha256 (msg : List Nat) : List Nat :=
  (sha256Blocks sha256H0 (sha256Pad msg)).flatMap (toBytesBE 4)

/-- HMAC-SHA-256 (RFC 2104) over byte lists, 64-byte block size. -/
def hmacSHA256Bytes (key msg : List Nat) : List Nat :=
  let k0 := if 64 < key.length then sha256 key else key
  let kp := k0 ++ List.replicate (64 - k0.length) 0
  let ipad := kp.map (fun b => b ^^^ 54)
  let opad := kp.map (fun b => b ^^^ 92)
  sha256 (opad ++ sha256 (ipad ++ msg))

/-- One lowercase hex digit. -/
def hexDigit (n : Nat) : Char :=
  if n < 10 then Char.ofNat (48 + n) else Char.ofNat (87 + n)

/-- Two lowercase hex digits of a byte (`b.toString(16).padStart(2, "0")`). -/
def byteToHex (b : Nat) : List Char :=
  [hexDigit (b / 16 % 16), hexDigit (b % 16)]

/-- Lowercase hex rendering of a byte list. -/
def bytesToHex (bs : List Nat) : String :=
  ⟨bs.flatMap byteToHex⟩

/-- The source's `hmacSHA256(secret, data)`: lowercase hex of the
HMAC-SHA-256 of the UTF-8 bytes of `data` keyed by the UTF-8 bytes of
`secret`. -/
def hmacSHA256 (secret data : String) : String :=
  bytesToHex (hmacSHA256Bytes (strBytes secret) (strBytes data))

set_option maxRecDepth 100000


/-! ## JavaScript string and number primitives

The subset of JS semantics the program exercises: `String.prototype.trim`,
`split` with a one-character separator, `parseInt(s, 10) || 0`,
`Number(...)` on the decimal strings a `t=` header field can carry,
`String(n)` / `${n}` for integers, `toLowerCase` on ASCII, the `||`
defaulting idiom on strings, and truthiness of a `string | null`. -/

/-- JS whitespace as used by `trim` / `Number` (ASCII subset; the program
only meets ASCII input). -/
def isJsSpace (c : Char) : Bool :=
  c = ' ' ∨ c = '\t' ∨ c = '\n' ∨ c = '\r' ∨ c.toNat = 11 ∨ c.toNat = 12

/-- `trim`: drop whitespace from both ends. -/
def trimChars (l : List Char) : List Char :=
  ((l.dropWhile isJsSpace).reverse.dropWhile isJsSpace).reverse

/-- `s.split(sep)` for a one-character separator: JS yields `[""]` on the
empty string and keeps empty fields. -/
def splitOnChar (sep : Char) : List Char → List (List Char)
  | [] => [[]]
  | c :: rest =>
      let r := splitOnChar sep rest
      if c = sep then [] :: r
      else
        match r with
        | [] => [[c]]
        | g :: gs => (c :: g) :: gs

def isDigitChar (c : Char) : Bool := 48 ≤ c.toNat ∧ c.toNat ≤ 57

def digitVal (c : Char) : Nat := c.toNat - 48

/-- Value of a decimal digit string (most significant first). -/
def natOfDigits (l : List Char) : Nat :=
  l.foldl (fun a c => 10 * a + digitVal c) 0

/-- Decimal digits of `n`, most significant first; fuel-structured so the
kernel can evaluate it (`fuel ≥ n` always suffices, see `natChars`). -/
def natCharsGo : Nat → Nat → List Char
  | 0, _ => []
  | fuel + 1, n =>
      if n < 10 then [Char.ofNat (48 + n)]
      else natCharsGo fuel (n / 10) ++ [Char.ofNat (48 + n % 10)]

def natChars (n : Nat) : List Char := natCharsGo (n + 1) n

def natStr (n : Nat) : String := ⟨natChars n⟩

/-- `String(n)` for an integer-valued JS number. -/
def intStr (n : Int) : String :=
  if n < 0 then "-" ++ natStr n.natAbs else natStr n.natAbs

/-- Leading-sign detection shared by `parseInt` and `Number`. -/
def splitSign (l : List Char) : Int × List Char :=
  match l with
  | [] => (1, [])
  | c :: r =>
      if c = '-' then (-1, r)
      else if c = '+' then (1, r)
      else (1, c :: r)

/-- `parseInt(s, 10) || 0`: skip leading whitespace, optional sign, take the
maximal decimal-digit prefix; `NaN` (no digits) collapses to `0` through
`|| 0`. -/
def parseIntOr0 (s : String) : Int :=
  let l := s.toList.dropWhile isJsSpace
  let p := splitSign l
  let ds := p.2.takeWhile isDigitChar
  if ds = [] then 0 else p.1 * natOfDigits ds

/-- The exact value of a decimal JS number literal: `num / 10 ^ exp`. Kept
unreduced so all arithmetic on it stays in `Int`/`Nat` (exact; the float
rounding of an extreme-precision timestamp field is outside this model's
scope, and every claim under study uses integer timestamps, which doubles
represent exactly). -/
structure JsNum where
  num : Int
  exp : Nat
deriving DecidableEq, Repr

/-- `Number(str)` on the forms a signature-header timestamp field can take:
whitespace-trimmed; empty string is `0`; optional sign; decimal digits with
an optional fractional part. Exponent/hex/`Infinity` forms are not modelled
(none are produced by the header grammar under study); any other shape is
`NaN`, encoded as `none`. -/
def jsNumberCore (l : List Char) : Option JsNum :=
  match l with
  | [] => some ⟨0, 0⟩
  | _ =>
      let p := splitSign l
      let intPart := p.2.takeWhile isDigitChar
      let rest := p.2.dropWhile isDigitChar
      match rest with
      | [] => if intPart = [] then none else some ⟨p.1 * natOfDigits intPart, 0⟩
      | '.' :: frac =>
          if frac.all isDigitChar && !(intPart.isEmpty && frac.isEmpty) then
            some ⟨p.1 * (natOfDigits intPart * 10 ^ frac.length + natOfDigits frac),
                  frac.length⟩
          else none
      | _ => none

/-- `Number(x)` where `x` is a string or `undefined` (`none`): `Number(undefined)`
is `NaN`. -/
def jsNumber : Option String → Option JsNum
  | none => none
  | some s => jsNumberCore (trimChars s.toList)

/-- Decimal digits of `n` padded to width `w` with leading zeros. -/
def natCharsPad (w n : Nat) : List Char :=
  let ds := natChars n
  List.replicate (w - ds.length) '0' ++ ds

/-- `${t}` for the parsed header timestamp: JS prints the shortest decimal,
so trailing fractional zeros disappear and integral values print with no
point (`Number("1.50")` prints `1.5`, `Number("007")` prints `7`). -/
def jsNumStr (v : JsNum) : String :=
  let a := v.num.natAbs
  let p := 10 ^ v.exp
  let sign := if v.num < 0 then "-" else ""
  let frac := (natCharsPad v.exp (a % p)).reverse.dropWhile (· = '0') |>.reverse
  if frac = [] then sign ++ natStr (a / p)
  else sign ++ natStr (a / p) ++ "." ++ ⟨frac⟩

/-- `toLowerCase` on ASCII letters (the currency codes the program
compares are ASCII). -/
def asciiLowerChar (c : Char) : Char :=
  if 65 ≤ c.toNat ∧ c.toNat ≤ 90 then Char.ofNat (c.toNat + 32) else c

def asciiLower (s : String) : String := ⟨s.toList.map asciiLowerChar⟩

/-- The `a || dflt` idiom on a possibly-missing string: `undefined`, `null`
and `""` are falsy. -/
def jsOrStr (o : Option String) (dflt : String) : String :=
  match o with
  | none => dflt
  | some s => if s = "" then dflt else s

/-- Truthiness of a `string | null` KV read: `null` and `""` are falsy. -/
def jsTruthyStr : Option String → Bool
  | none => false
  | some s => s ≠ ""

/-! ## Stripe signature verification (`verifyStripeSignatureAsync`) -/

/-- `timingSafeEqualHex` from the source: equal length, then XOR-accumulate
every character code, never short-circuiting. -/
def timingSafeEqualHex (a b : String) : Bool :=
  a.length == b.length &&
    ((a.toList.zip b.toList).foldl (fun r p => r ||| (p.1.toNat ^^^ p.2.toNat)) 0 == 0)

/-- Header parsing: split on `,`, split each pair on `=` taking the first
two fields (`const [k, v] = p.split("=")`, missing `v` read as `""`), trim
both. -/
def parseSigHeader (h : String) : List (String × String) :=
  (splitOnChar ',' h.toList).map fun p =>
    let kv := splitOnChar '=' p
    (⟨trimChars (kv.headD [])⟩, ⟨trimChars (kv.getD 1 [])⟩)

/-- `Object.fromEntries` lookup: the last entry for a key wins. -/
def lastLookup (ps : List (String × String)) (k : String) : Option String :=
  (ps.filterMap fun p => if p.1 = k then some p.2 else none).getLast?

/-- The three failure modes thrown by `verifyStripeSignatureAsync`
(`"Bad Stripe-Signature header"`, `"Timestamp outside tolerance"`,
`"Signature mismatch"`). -/
inductive VerifyError where
  | invalidHeader
  | staleTimestamp
  | signatureMismatch
deriving DecidableEq, Repr

instance {ε α : Type} [DecidableEq ε] [DecidableEq α] : DecidableEq (Except ε α)
  | .ok a, .ok b => if h : a = b then .isTrue (by rw [h]) else .isFalse (by simp [h])
  | .ok _, .error _ => .isFalse (by simp)
  | .error _, .ok _ => .isFalse (by simp)
  | .error e, .error f => if h : e = f then .isTrue (by rw [h]) else .isFalse (by simp [h])

/-- `verifyStripeSignatureAsync(rawBody, sigHeader, endpointSecret,
toleranceSeconds)`, with the wall clock `Math.floor(Date.now() / 1000)`
passed in as `now`. `!t` is true exactly when the timestamp field parses to
`NaN` (none) or `0`; `Math.abs(now - t) > toleranceSeconds` is taken over
the exact value `t.num / 10^t.exp`, cross-multiplied into `Int`. -/
def verifyStripeSignature (rawBody sigHeader endpointSecret : String)
    (toleranceSeconds : Int) (now : Int) : Except VerifyError Unit :=
  let parts := parseSigHeader sigHeader
  let t := (jsNumber (lastLookup parts "t")).getD ⟨0, 0⟩
  let v1 := (lastLookup parts "v1").getD ""
  if t.num = 0 ∨ v1 = "" then .error .invalidHeader
  else if toleranceSeconds * 10 ^ t.exp < |now * 10 ^ t.exp - t.num| then
    .error .staleTimestamp
  else
    let signedPayload := jsNumStr t ++ "." ++ rawBody
    let expectedHex := hmacSHA256 endpointSecret signedPayload
    if timingSafeEqualHex expectedHex v1 then .ok () else .error .signatureMismatch

/-- A well-formed Stripe signature header carrying timestamp `t` and hex
signature `v1` (the shape Stripe sends and §8 of the design builds). -/
def mkSigHeader (t : Nat) (v1 : String) : String :=
  "t=" ++ natStr t ++ ",v1=" ++ v1

/-- XOR mask `m` into the character at position `q` of a character list. -/
def flipBitGo (q : Nat) (m : Nat) : Nat → List Char → List Char
  | _, [] => []
  | j, c :: cs =>
      if j = q then Char.ofNat (c.toNat ^^^ m) :: cs
      else c :: flipBitGo q m (j + 1) cs

/-- Flip bit `i % 8` of character `i / 8` of a string (for ASCII input this
is flipping bit `i` of the byte stream). -/
def flipBitStr (i : Nat) (s : String) : String :=
  String.mk (flipBitGo (i / 8) (1 <<< (i % 8)) 0 s.toList)

/-- The reference digest for the concrete bit-flip experiments: the
lowercase-hex HMAC-SHA256 of `1700000000.x` under secret `k31458`. -/
def c3Digest : String :=
  "c4bf2a43b2aa3818e7331fa8446ed17bb868c412646273b20d613af6fde76d8f"


/-! ## The KV store (`env.MILESTONE_KV`)

Workers KV with only get/put visible to this program. Shared state is a
`String → String` association; availability is modelled by a schedule of
booleans consumed one per KV operation (`true` = the operation reaches the
store, `false` = it throws), so a single run can see the store fail at any
chosen operation; an exhausted schedule means the store stays reachable.
`put` TTLs (the 14-day dedup-marker expiry) are time-based retention and
are not modelled — no claim under study spans the retention window. -/

structure Store where
  data : List (String × String)
  sched : List Bool
deriving DecidableEq, Repr

/-- Overwrite-or-append for the association list backing the store. -/
def kvInsert (k v : String) : List (String × String) → List (String × String)
  | [] => [(k, v)]
  | (k2, v2) :: rest => if k2 = k then (k, v) :: rest else (k2, v2) :: kvInsert k v rest

def kvLookup (k : String) : List (String × String) → Option String
  | [] => none
  | (k2, v2) :: rest => if k2 = k then some v2 else kvLookup k rest

/-- Consume one schedule entry: does the next KV operation succeed? -/
def Store.takeStep (st : Store) : Bool × Store :=
  match st.sched with
  | [] => (true, st)
  | b :: rest => (b, ⟨st.data, rest⟩)

/-- `await env.MILESTONE_KV.get(key)`: `none` plays JS `null`. An
unreachable store throws, surfaced as `.error`. -/
def kvGet (st : Store) (k : String) : Except Unit (Option String) × Store :=
  let p := st.takeStep
  if p.1 then (.ok (kvLookup k p.2.data), p.2) else (.error (), p.2)

/-- `await env.MILESTONE_KV.put(key, val)`. -/
def kvPut (st : Store) (k v : String) : Except Unit Unit × Store :=
  let p := st.takeStep
  if p.1 then (.ok (), ⟨kvInsert k v p.2.data, p.2.sched⟩) else (.error (), p.2)

/-! ## KV helpers of the source (`addCents`, `readGrossAud`, `markProcessed`) -/

def GROSS_KEY : String := "total_cents"

def LATEST_KEY : String := "latest_payment"

def DEDUPE_PREF : String := "evt:"

/-- `cents | 0` then `Math.max(0, ·)` (from `addCents`): ToInt32 truncates
toward zero and wraps into `[-2^31, 2^31)`; the `Math.max` floors the
result at `0`. `ℚ` stands for the exact value of the JSON amount (JSON
numbers are finite doubles, all rational). -/
def ratTrunc (q : ℚ) : Int := q.num.tdiv q.den

def toInt32 (q : ℚ) : Int :=
  let m := ratTrunc q % 4294967296
  if m < 2147483648 then m else m - 4294967296

def addDelta (q : ℚ) : Int := max 0 (toInt32 q)

/-- `addCents(env, cents)`: read the running total, add the clamped delta,
write it back; a store error at either operation propagates (`throw e`). -/
def addCents (st : Store) (cents : ℚ) : Except Unit Unit × Store :=
  let g := kvGet st GROSS_KEY
  match g.1 with
  | .error _ => (.error (), g.2)
  | .ok raw? =>
      let current := parseIntOr0 (raw?.getD "0")
      let next := current + addDelta cents
      kvPut g.2 GROSS_KEY (intStr next)

/-- `readGrossAud(env)`: total in whole AUD, `Math.round(cents / 100)` =
`⌊(cents + 50) / 100⌋`; a store error is caught and the visual fallback
`988100` returned. -/
def readGrossAud (st : Store) : Int × Store :=
  let g := kvGet st GROSS_KEY
  match g.1 with
  | .error _ => (988100, g.2)
  | .ok raw? =>
      let cents := parseIntOr0 (raw?.getD "0")
      ((cents + 50).fdiv 100, g.2)

/-- `markProcessed(env, eventId)`: get the `evt:`-prefixed marker; a truthy
value means duplicate (`false`); otherwise write the marker and report new
(`true`). Any store error is caught and reported as new (`return true`,
"don't block processing"). -/
def markProcessed (st : Store) (eventId : String) : Bool × Store :=
  let key := DEDUPE_PREF ++ eventId
  let g := kvGet st key
  match g.1 with
  | .error _ => (true, g.2)
  | .ok v? =>
      if jsTruthyStr v? then (false, g.2)
      else (true, (kvPut g.2 key "1").2)

/-! ## The webhook event and handler (`handleStripeWebhook`, lines 120–166)

`JSON.parse(rawBody)` yields a dynamic value the handler probes for a fixed
set of paths; `StripeEvent`/`EventObject` record exactly those paths, with
`Option` for absent/null fields (`id := ""` encodes the falsy result of
`event?.id || ""`). `JSON.parse` is deterministic, so byte-identical bodies
parse to the same `StripeEvent`; the claims about the post-verification
pipeline are stated over the parsed event. -/

structure EventObject where
  currency : Option String := none
  amount : Option ℚ := none
  billingName : Option String := none
  piChargeName : Option String := none
  shippingName : Option String := none
  amountReceived : Option ℚ := none
  customerDetailsName : Option String := none
  customerName : Option String := none
  amountTotal : Option ℚ := none
deriving DecidableEq

structure StripeEvent where
  id : String
  type : String
  obj : EventObject := {}
  created : Option Int := none
deriving DecidableEq

/-- One digit of the decimal expansion of `r / b`, long division with fuel. -/
def fracDigitsGo : Nat → Nat → Nat → List Char
  | 0, _, _ => []
  | _, 0, _ => []
  | fuel + 1, r, b =>
      Char.ofNat (48 + 10 * r / b % 10) :: fracDigitsGo fuel (10 * r % b) b

/-- Decimal rendering of the exact rational `q` (integer part, then up to
ten fractional digits): stands in for JS number-to-string in
`JSON.stringify({..., amount, ...})`. The amounts the handler stores are
cents divided by 100, for which this agrees with JS shortest-decimal
printing; it is a fixed, source-independent rendering, used only to state
*which* amount was recorded. -/
def ratDecimalStr (q : ℚ) : String :=
  let a := q.num.natAbs
  let b := q.den
  let sign := if q.num < 0 then "-" else ""
  let frac := fracDigitsGo 10 (a % b) b
  if frac = [] then sign ++ natStr (a / b)
  else sign ++ natStr (a / b) ++ "." ++ ⟨frac⟩

/-- Days-from-epoch to civil date (proleptic Gregorian). -/
def civilFromDays (z0 : Int) : Int × Nat × Nat :=
  let z := z0 + 719468
  let era := z.fdiv 146097
  let doe := (z - era * 146097).toNat
  let yoe := (doe - doe / 1460 + doe / 36524 - doe / 146096) / 365
  let y := (yoe : Int) + era * 400
  let doy := doe - (365 * yoe + yoe / 4 - yoe / 100)
  let mp := (5 * doy + 2) / 153
  let d := doy - (153 * mp + 2) / 5 + 1
  let m := if mp < 10 then mp + 3 else mp - 9
  (if m ≤ 2 then y + 1 else y, m, d)

def pad4 (y : Int) : String :=
  if 0 ≤ y ∧ y < 10000 then ⟨natCharsPad 4 y.toNat⟩ else intStr y

/-- `new Date(sec * 1000).toISOString()` for whole seconds:
`YYYY-MM-DDTHH:MM:SS.000Z`. -/
def isoOf (sec : Int) : String :=
  let days := sec.fdiv 86400
  let sod := (sec.emod 86400).toNat
  let c := civilFromDays days
  pad4 c.1 ++ "-" ++ ⟨natCharsPad 2 c.2.1⟩ ++ "-" ++ ⟨natCharsPad 2 c.2.2⟩ ++
    "T" ++ ⟨natCharsPad 2 (sod / 3600)⟩ ++ ":" ++ ⟨natCharsPad 2 (sod % 3600 / 60)⟩ ++
    ":" ++ ⟨natCharsPad 2 (sod % 60)⟩ ++ ".000Z"

/-- `JSON.stringify({ name, amount, created })` for the latest-payment
record. String-escaping inside `name` is not modelled (no claim depends on
it); the rendering fixes which payer/amount/timestamp were stored. -/
def latestJson (name : String) (amount : ℚ) (created : String) : String :=
  "\x7b\"name\":\"" ++ name ++ "\",\"amount\":" ++ ratDecimalStr amount ++
    ",\"created\":\"" ++ created ++ "\"\x7d"

structure Resp where
  status : Nat
  body : String
deriving DecidableEq, Repr

/-- Store the latest-payment record and answer `200 "ok"`, or `500` when
the put throws (the enclosing `catch`). -/
def putLatest (st : Store) (name : String) (amountAud : ℚ) (createdISO : String) :
    Resp × Store :=
  let p := kvPut st LATEST_KEY (latestJson name amountAud createdISO)
  match p.1 with
  | .error _ => (⟨500, "KV write failed"⟩, p.2)
  | .ok _ => (⟨200, "ok"⟩, p.2)

/-- The `try { ... }` dispatch of `handleStripeWebhook` on `event.type`
(lines 128–165): `charge.succeeded` adds to the total when the currency
is `aud` (case-insensitive) and then records the latest payment;
`payment_intent.succeeded` and `checkout.session.completed` only record
the latest payment; anything else is ignored. Any store error in the block
is caught and answered `500 "KV write failed"`. -/
def eventBranches (e : StripeEvent) (now : Int) (st : Store) : Resp × Store :=
  if e.type = "charge.succeeded" then
    let ch := e.obj
    let step1 :=
      if asciiLower (ch.currency.getD "") = "aud" then addCents st (ch.amount.getD 0)
      else (.ok (), st)
    match step1.1 with
    | .error _ => (⟨500, "KV write failed"⟩, step1.2)
    | .ok _ =>
        putLatest step1.2 (jsOrStr ch.billingName "Unknown") (ch.amount.getD 0 / 100)
          (isoOf (e.created.getD now))
  else if e.type = "payment_intent.succeeded" then
    let pi := e.obj
    putLatest st (jsOrStr pi.piChargeName (jsOrStr pi.shippingName "Unknown"))
      ((pi.amountReceived.orElse fun _ => pi.amount).getD 0 / 100)
      (isoOf (e.created.getD now))
  else if e.type = "checkout.session.completed" then
    let s := e.obj
    putLatest st (jsOrStr s.customerDetailsName (jsOrStr s.customerName "Unknown"))
      (s.amountTotal.getD 0 / 100) (isoOf (e.created.getD now))
  else (⟨200, "ignored"⟩, st)

/-- `handleStripeWebhook` after signature verification and `JSON.parse`
succeed (lines 124–165): reject a missing/empty event id, consult-and-set
the dedup marker (`markProcessed`, answering `200 "duplicate"` when it
reports a duplicate), then dispatch on the event type. -/
def ingestEvent (e : StripeEvent) (now : Int) (st : Store) : Resp × Store :=
  if e.id = "" then (⟨400, "Missing event id"⟩, st)
  else
    let m := markProcessed st e.id
    if m.1 then eventBranches e now m.2 else (⟨200, "duplicate"⟩, m.2)

/-- The stored running total as the program itself would next read it:
`parseInt(raw ?? "0", 10) || 0`. -/
def totalOf (st : Store) : Int :=
  parseIntOr0 ((kvLookup GROSS_KEY st.data).getD "0")


/-! ## The `Math.max(0, cents | 0)` clamp (claim C10) -/

lemma ratTrunc_eq_floor (q : ℚ) (h : 0 ≤ q) : ratTrunc q = ⌊q⌋ := by
  rw [ratTrunc, Int.tdiv_eq_ediv (Rat.num_nonneg.2 h) (by positivity), Rat.floor_def]

lemma ratTrunc_eq_ceil (q : ℚ) (h : q < 0) : ratTrunc q = ⌈q⌉ := by
  have hnum : q.num < 0 := by
    by_contra hc
    push_neg at hc
    exact absurd (Rat.num_nonneg.1 hc) (not_le.2 h)
  have h1 : q.num.tdiv q.den = -((-q.num).tdiv q.den) := by
    rw [Int.neg_tdiv, neg_neg]
  have h2 : ⌈q⌉ = -⌊-q⌋ := by
    rw [Int.floor_neg, neg_neg]
  rw [ratTrunc, h1, Int.tdiv_eq_ediv (by omega) (by positivity), h2, Rat.floor_def,
    Rat.neg_num, Rat.neg_den]

lemma toInt32_bounds (q : ℚ) :
    -2147483648 ≤ toInt32 q ∧ toInt32 q ≤ 2147483647 := by
  rw [toInt32]
  have h1 := Int.emod_nonneg (ratTrunc q) (show (4294967296 : Int) ≠ 0 by decide)
  have h2 := Int.emod_lt_of_pos (ratTrunc q) (show (0 : Int) < 4294967296 by decide)
  split <;> omega

/-- **C10 counterexample.** The claim's "any negative amount becomes 0"
fails: the amount `-2147483653` cents (negative, just past `-2^31`) wraps
through ToInt32 to `2147483643`, so `addDelta` applies a large positive
delta, not `0`. -/
theorem addDelta_negative_wraps_positive :
    ((-2147483653 : Int) : ℚ) < 0 ∧
    addDelta ((-2147483653 : Int) : ℚ) = 2147483643 ∧
    addDelta ((-2147483653 : Int) : ℚ) ≠ 0 := by
  decide

/-- **C10 (amended).** The delta `Math.max(0, cents | 0)` actually applied
is always an integer in `[0, 2^31 - 1]`; a *negative amount within int32
range* becomes `0` (outside that range the int32 conversion may wrap it
positive, see the counterexample); a non-negative in-range amount is
truncated toward zero, i.e. the delta is `⌊q⌋`, the integer within
distance 1 below `q`. -/
theorem addDelta_clamp_bounds :
    (∀ q : ℚ, 0 ≤ addDelta q ∧ addDelta q ≤ 2147483647) ∧
    (∀ q : ℚ, ((-2147483648 : Int) : ℚ) ≤ q → q < 0 → addDelta q = 0) ∧
    (∀ q : ℚ, 0 ≤ q → q < ((2147483648 : Int) : ℚ) →
      addDelta q = ⌊q⌋ ∧ ((addDelta q : ℚ) ≤ q ∧ q - 1 < (addDelta q : ℚ))) := by
  refine ⟨?_, ?_, ?_⟩
  · intro q
    have h := toInt32_bounds q
    rw [addDelta]
    omega
  · intro q hlo hneg
    have hceil : ratTrunc q = ⌈q⌉ := ratTrunc_eq_ceil q hneg
    have ht1 : ratTrunc q ≤ 0 := by
      rw [hceil]
      calc ⌈q⌉ ≤ ⌈(0 : ℚ)⌉ := Int.ceil_le_ceil (le_of_lt hneg)
        _ = 0 := Int.ceil_zero
    have ht2 : -2147483648 ≤ ratTrunc q := by
      rw [hceil]
      calc (-2147483648 : Int) = ⌈((-2147483648 : Int) : ℚ)⌉ := (Int.ceil_intCast _).symm
        _ ≤ ⌈q⌉ := Int.ceil_le_ceil hlo
    rw [addDelta, toInt32]
    rcases eq_or_lt_of_le ht1 with h0 | h0
    · rw [h0]
      decide
    · have hm : ratTrunc q % 4294967296 = ratTrunc q + 4294967296 := by
        have he : (ratTrunc q + 4294967296 * 1) % 4294967296 = ratTrunc q % 4294967296 :=
          Int.add_mul_emod_self_left ..
        rw [mul_one] at he
        rw [← he, Int.emod_eq_of_lt (by omega) (by omega)]
      rw [hm, if_neg (by omega)]
      omega
  · intro q h0 hhi
    have hfl : ratTrunc q = ⌊q⌋ := ratTrunc_eq_floor q h0
    have ht1 : 0 ≤ ratTrunc q := by
      rw [hfl]
      exact Int.floor_nonneg.2 h0
    have ht2 : ratTrunc q < 2147483648 := by
      rw [hfl]
      exact Int.floor_lt.2 hhi
    have hdelta : addDelta q = ⌊q⌋ := by
      rw [addDelta, toInt32]
      rw [show ratTrunc q % 4294967296 = ratTrunc q from Int.emod_eq_of_lt ht1 (by omega)]
      rw [if_pos (by omega), ← hfl]
      omega
    refine ⟨hdelta, ?_, ?_⟩
    · rw [hdelta]
      exact Int.floor_le q
    · rw [hdelta]
      have := Int.lt_floor_add_one q
      linarith

/-- **C10 witness instance.** `-5` cents (in-range negative) contributes
`0`; `7` cents contributes `⌊7⌋`. -/
theorem addDelta_clamp_bounds_witness :
    addDelta ((-5 : Int) : ℚ) = 0 ∧ addDelta ((7 : Nat) : ℚ) = ⌊((7 : Nat) : ℚ)⌋ :=
  ⟨addDelta_clamp_bounds.2.1 _ (by decide) (by decide),
   (addDelta_clamp_bounds.2.2 _ (by decide) (by decide)).1⟩

/-! ## Decimal-digit rendering and parsing lemmas -/

lemma toNat_ofNat_digit (n : Nat) (h : n < 10) : (Char.ofNat (48 + n)).toNat = 48 + n := by
  interval_cases n <;> decide

lemma isDigitChar_ofNat_digit (n : Nat) (h : n < 10) : isDigitChar (Char.ofNat (48 + n)) = true := by
  interval_cases n <;> decide

lemma digitVal_ofNat_digit (n : Nat) (h : n < 10) : digitVal (Char.ofNat (48 + n)) = n := by
  interval_cases n <;> decide

lemma natCharsGo_digits (fuel : Nat) :
    ∀ n, ∀ c ∈ natCharsGo fuel n, isDigitChar c = true := by
  induction fuel with
  | zero => intro n c hc; simp [natCharsGo] at hc
  | succ fuel ih =>
      intro n c hc
      rw [natCharsGo] at hc
      split at hc
      · next h =>
          simp at hc
          subst hc
          exact isDigitChar_ofNat_digit n h
      · next h =>
          rcases List.mem_append.1 hc with h1 | h1
          · exact ih _ c h1
          · simp at h1
            subst h1
            exact isDigitChar_ofNat_digit _ (Nat.mod_lt _ (by omega))

lemma natCharsGo_ne_nil (fuel n : Nat) (h : 0 < fuel) : natCharsGo fuel n ≠ [] := by
  match fuel, h with
  | fuel + 1, _ =>
      rw [natCharsGo]
      split
      · simp
      · simp

lemma natOfDigits_append_one (xs : List Char) (c : Char) :
    natOfDigits (xs ++ [c]) = 10 * natOfDigits xs + digitVal c := by
  simp [natOfDigits, List.foldl_append]

lemma natOfDigits_natCharsGo (fuel : Nat) :
    ∀ n, n < fuel → natOfDigits (natCharsGo fuel n) = n := by
  induction fuel with
  | zero => intro n h; omega
  | succ fuel ih =>
      intro n h
      rw [natCharsGo]
      split
      · next h10 =>
          simpa [natOfDigits] using digitVal_ofNat_digit n h10
      · next h10 =>
          push_neg at h10
          rw [natOfDigits_append_one, ih (n / 10) (by omega),
            digitVal_ofNat_digit _ (Nat.mod_lt _ (by omega))]
          omega

lemma natChars_digits (n : Nat) : ∀ c ∈ natChars n, isDigitChar c = true :=
  natCharsGo_digits (n + 1) n

lemma natChars_ne_nil (n : Nat) : natChars n ≠ [] :=
  natCharsGo_ne_nil (n + 1) n (by omega)

lemma natOfDigits_natChars (n : Nat) : natOfDigits (natChars n) = n :=
  natOfDigits_natCharsGo (n + 1) n (by omega)

lemma isJsSpace_eq_false_of_digit {c : Char} (h : isDigitChar c = true) :
    isJsSpace c = false := by
  simp only [isDigitChar, decide_eq_true_eq] at h
  simp only [isJsSpace, decide_eq_false_iff_not]
  push_neg
  refine ⟨?_, ?_, ?_, ?_, ?_, ?_⟩
  · rintro rfl; revert h; decide
  · rintro rfl; revert h; decide
  · rintro rfl; revert h; decide
  · rintro rfl; revert h; decide
  · omega
  · omega

lemma not_sign_of_digit {c : Char} (h : isDigitChar c = true) : c ≠ '-' ∧ c ≠ '+' := by
  simp only [isDigitChar, decide_eq_true_eq] at h
  constructor <;> · rintro rfl; revert h; decide

lemma splitSign_neg (l : List Char) : splitSign ('-' :: l) = (-1, l) := by
  simp [splitSign]

lemma splitSign_digit {c : Char} (h : isDigitChar c = true) (l : List Char) :
    splitSign (c :: l) = (1, c :: l) := by
  rw [splitSign, if_neg (not_sign_of_digit h).1, if_neg (not_sign_of_digit h).2]

lemma takeWhile_eq_self {p : Char → Bool} :
    ∀ l : List Char, (∀ c ∈ l, p c = true) → List.takeWhile p l = l := by
  intro l
  induction l with
  | nil => intro _; rfl
  | cons c cs ih =>
      intro hl
      rw [List.takeWhile_cons, hl c (by simp)]
      simp only [if_true]
      rw [ih fun x hx => hl x (by simp [hx])]

/-- Digit lists pass `parseIntOr0` through unscathed: no space to skip, no
sign, all taken. -/
lemma parseIntOr0_digits (l : List Char) (hne : l ≠ [])
    (hdig : ∀ x ∈ l, isDigitChar x = true) (s : String) (hs : s.toList = l) :
    parseIntOr0 s = natOfDigits l := by
  obtain ⟨c, cs, rfl⟩ : ∃ c cs, l = c :: cs := by
    rcases l with _ | ⟨c, cs⟩
    · exact absurd rfl hne
    · exact ⟨c, cs, rfl⟩
  have hc : isDigitChar c = true := hdig c (by simp)
  simp only [parseIntOr0, hs]
  rw [List.dropWhile_cons, isJsSpace_eq_false_of_digit hc]
  simp only [Bool.false_eq_true, if_false]
  rw [splitSign_digit hc]
  rw [takeWhile_eq_self _ hdig]
  simp

lemma parseIntOr0_natStr (n : Nat) : parseIntOr0 (natStr n) = n := by
  have h := parseIntOr0_digits (natChars n) (natChars_ne_nil n) (natChars_digits n)
    (natStr n) rfl
  rw [h, natOfDigits_natChars]

lemma parseIntOr0_intStr (n : Int) : parseIntOr0 (intStr n) = n := by
  rcases Int.lt_or_le n 0 with hneg | hpos
  · have htl : (intStr n).toList = '-' :: natChars n.natAbs := by
      rw [intStr, if_pos hneg]
      show ("-" ++ natStr n.natAbs).data = _
      rw [String.data_append]
      rfl
    simp only [parseIntOr0, htl]
    rw [List.dropWhile_cons, show isJsSpace '-' = false from by decide]
    simp only [Bool.false_eq_true, if_false]
    rw [splitSign_neg]
    rw [takeWhile_eq_self _ (natChars_digits _), if_neg (natChars_ne_nil _),
      natOfDigits_natChars]
    omega
  · have h1 : intStr n = natStr n.toNat := by
      rw [intStr, if_neg (by omega), show n.natAbs = n.toNat by omega]
    rw [h1, parseIntOr0_natStr]
    omega

/-! ## Header-parsing lemmas -/

lemma dropWhile_eq_self_of_false {p : Char → Bool} :
    ∀ l : List Char, (∀ c ∈ l, p c = false) → List.dropWhile p l = l := by
  intro l h
  cases l with
  | nil => rfl
  | cons c cs => rw [List.dropWhile_cons, h c (by simp)]; simp

lemma dropWhile_eq_nil_of_true {p : Char → Bool} :
    ∀ l : List Char, (∀ c ∈ l, p c = true) → List.dropWhile p l = [] := by
  intro l
  induction l with
  | nil => intro _; rfl
  | cons c cs ih =>
      intro h
      rw [List.dropWhile_cons, h c (by simp)]
      simp only [if_true]
      exact ih fun x hx => h x (by simp [hx])

lemma trimChars_eq_self (l : List Char) (h : ∀ c ∈ l, isJsSpace c = false) :
    trimChars l = l := by
  rw [trimChars, dropWhile_eq_self_of_false l h,
    dropWhile_eq_self_of_false l.reverse (fun c hc => h c (List.mem_reverse.1 hc)),
    List.reverse_reverse]

lemma splitOnChar_no_sep (sep : Char) :
    ∀ l : List Char, (∀ c ∈ l, c ≠ sep) → splitOnChar sep l = [l] := by
  intro l
  induction l with
  | nil => intro _; rfl
  | cons c cs ih =>
      intro h
      rw [splitOnChar]
      simp only [if_neg (h c (by simp))]
      rw [ih fun x hx => h x (by simp [hx])]

lemma splitOnChar_append_sep (sep : Char) :
    ∀ (l rest : List Char), (∀ c ∈ l, c ≠ sep) →
      splitOnChar sep (l ++ sep :: rest) = l :: splitOnChar sep rest := by
  intro l
  induction l with
  | nil =>
      intro rest _
      rw [List.nil_append, splitOnChar]
      simp
  | cons c cs ih =>
      intro rest h
      rw [List.cons_append, splitOnChar]
      simp only [if_neg (h c (by simp))]
      rw [ih rest fun x hx => h x (by simp [hx])]

/-- Decimal digits are neither separators nor whitespace. -/
lemma digit_header_safe {c : Char} (h : isDigitChar c = true) :
    c ≠ ',' ∧ c ≠ '=' := by
  simp only [isDigitChar, decide_eq_true_eq] at h
  constructor <;> · rintro rfl; revert h; decide

lemma sigHeader_fields_toList (f1 v1 : String) :
    ("t=" ++ f1 ++ ",v1=" ++ v1).toList =
      ('t' :: '=' :: f1.toList) ++ ',' :: ('v' :: '1' :: '=' :: v1.toList) := by
  show ("t=" ++ f1 ++ ",v1=" ++ v1).data = _
  rw [String.data_append, String.data_append, String.data_append]
  show ['t', '='] ++ f1.data ++ [',', 'v', '1', '='] ++ v1.data = _
  simp

lemma lastLookup_pair_t (tS D : String) :
    lastLookup [("t", tS), ("v1", D)] "t" = some tS := by
  rw [lastLookup]
  simp [List.filterMap, show ¬(("v1" : String) = "t") from by decide]

lemma lastLookup_pair_v1 (tS D : String) :
    lastLookup [("t", tS), ("v1", D)] "v1" = some D := by
  rw [lastLookup]
  simp [List.filterMap, show ¬(("t" : String) = "v1") from by decide]

/-- Parsing the well-formed header yields exactly the two fields, provided
the signature field contains no separator characters and is
trim-invariant. -/
lemma parseSigHeader_fields (f1 v1 : String)
    (hf : ∀ c ∈ f1.toList, c ≠ ',' ∧ c ≠ '=')
    (htrf : trimChars f1.toList = f1.toList)
    (hv : ∀ c ∈ v1.toList, c ≠ ',' ∧ c ≠ '=')
    (htr : trimChars v1.toList = v1.toList) :
    parseSigHeader ("t=" ++ f1 ++ ",v1=" ++ v1) = [("t", f1), ("v1", v1)] := by
  rw [parseSigHeader, sigHeader_fields_toList]
  rw [splitOnChar_append_sep ',' _ _ (by
    intro c hc
    rcases hc with _ | ⟨_, hc⟩
    · decide
    · rcases hc with _ | ⟨_, hc⟩
      · decide
      · exact (hf c hc).1)]
  rw [splitOnChar_no_sep ',' _ (by
    intro c hc
    rcases hc with _ | ⟨_, hc⟩
    · decide
    · rcases hc with _ | ⟨_, hc⟩
      · decide
      · rcases hc with _ | ⟨_, hc⟩
        · decide
        · exact (hv c hc).1)]
  simp only [List.map_cons, List.map_nil]
  rw [show ('t' :: '=' :: f1.toList) = ['t'] ++ '=' :: f1.toList from rfl]
  rw [splitOnChar_append_sep '=' _ _ (by decide)]
  rw [splitOnChar_no_sep '=' _ (fun c hc => (hf c hc).2)]
  rw [show ('v' :: '1' :: '=' :: v1.toList) = ['v', '1'] ++ '=' :: v1.toList from rfl]
  rw [splitOnChar_append_sep '=' _ _ (by decide)]
  rw [splitOnChar_no_sep '=' _ (fun c hc => (hv c hc).2)]
  simp only [List.headD_cons, List.getD_cons_succ, List.getD_cons_zero]
  rw [trimChars_eq_self ['t'] (by decide), htrf,
    trimChars_eq_self ['v', '1'] (by decide), htr]
  rfl

lemma parseSigHeader_mk (t : Nat) (v1 : String)
    (hv : ∀ c ∈ v1.toList, c ≠ ',' ∧ c ≠ '=')
    (htr : trimChars v1.toList = v1.toList) :
    parseSigHeader (mkSigHeader t v1) = [("t", natStr t), ("v1", v1)] := by
  have hdig := natChars_digits t
  rw [mkSigHeader]
  exact parseSigHeader_fields (natStr t) v1
    (fun c hc => digit_header_safe (hdig c hc))
    (trimChars_eq_self _ (fun c hc => isJsSpace_eq_false_of_digit (hdig c hc)))
    hv htr

/-- A header with no `t=` pair at all. -/
lemma parseSigHeader_v1_only (v1 : String)
    (hv : ∀ c ∈ v1.toList, c ≠ ',' ∧ c ≠ '=')
    (htr : trimChars v1.toList = v1.toList) :
    parseSigHeader ("v1=" ++ v1) = [("v1", v1)] := by
  have htl : ("v1=" ++ v1).toList = 'v' :: '1' :: '=' :: v1.toList := by
    show ("v1=" ++ v1).data = _
    rw [String.data_append]
    rfl
  rw [parseSigHeader, htl]
  rw [splitOnChar_no_sep ',' _ (by
    intro c hc
    rcases hc with _ | ⟨_, hc⟩
    · decide
    · rcases hc with _ | ⟨_, hc⟩
      · decide
      · rcases hc with _ | ⟨_, hc⟩
        · decide
        · exact (hv c hc).1)]
  simp only [List.map_cons, List.map_nil]
  rw [show ('v' :: '1' :: '=' :: v1.toList) = ['v', '1'] ++ '=' :: v1.toList from rfl]
  rw [splitOnChar_append_sep '=' _ _ (by decide)]
  rw [splitOnChar_no_sep '=' _ (fun c hc => (hv c hc).2)]
  simp only [List.headD_cons, List.getD_cons_succ, List.getD_cons_zero]
  rw [trimChars_eq_self ['v', '1'] (by decide), htr]
  rfl

lemma lastLookup_single_v1_t (D : String) :
    lastLookup [("v1", D)] "t" = none := by
  rw [lastLookup]
  simp [List.filterMap, show ¬(("v1" : String) = "t") from by decide]

lemma jsNumber_natStr (t : Nat) : jsNumber (some (natStr t)) = some ⟨(t : Int), 0⟩ := by
  have hdig := natChars_digits t
  obtain ⟨c, cs, hcc⟩ : ∃ c cs, natChars t = c :: cs := by
    rcases h : natChars t with _ | ⟨c, cs⟩
    · exact absurd h (natChars_ne_nil t)
    · exact ⟨c, cs, rfl⟩
  have hdig2 : ∀ x ∈ c :: cs, isDigitChar x = true := by
    rw [← hcc]
    exact hdig
  rw [jsNumber]
  rw [show (natStr t).toList = natChars t from rfl]
  rw [trimChars_eq_self _ (fun c hc => isJsSpace_eq_false_of_digit (hdig c hc))]
  rw [hcc, jsNumberCore]
  rw [splitSign_digit (hdig2 c (by simp))]
  simp only []
  rw [takeWhile_eq_self _ hdig2, dropWhile_eq_nil_of_true _ hdig2]
  rw [if_neg (show ¬(c :: cs = []) from fun h => List.noConfusion h), ← hcc,
    natOfDigits_natChars]
  simp
  exact fun h => List.noConfusion h

lemma jsNumStr_natCast (t : Nat) : jsNumStr ⟨(t : Int), 0⟩ = natStr t := by
  simp only [jsNumStr, pow_zero, Nat.mod_one, Nat.div_one, Int.natAbs_ofNat]
  rw [if_neg (show ¬((t : Int) < 0) by omega)]
  rw [show (((natCharsPad 0 0).reverse.dropWhile (· = '0')).reverse : List Char) = []
    from rfl]
  rw [if_pos rfl]
  apply String.ext
  rw [String.data_append]
  rfl

/-- The constant-time comparison agrees with string equality. -/
lemma lor_eq_zero {a b : Nat} (h : a ||| b = 0) : a = 0 ∧ b = 0 := by
  constructor <;>
  · apply Nat.eq_of_testBit_eq
    intro i
    have h2 : (a ||| b).testBit i = Nat.testBit 0 i := by rw [h]
    rw [Nat.testBit_or] at h2
    simp at h2 ⊢
    first
      | exact h2.1
      | exact h2.2

lemma foldl_orXor_acc :
    ∀ (l : List (Char × Char)) (acc : Nat),
      l.foldl (fun r p => r ||| (p.1.toNat ^^^ p.2.toNat)) acc = 0 →
      acc = 0 ∧ ∀ p ∈ l, p.1 = p.2 := by
  intro l
  induction l with
  | nil => intro acc h; exact ⟨h, by simp⟩
  | cons p ps ih =>
      intro acc h
      rw [List.foldl_cons] at h
      obtain ⟨h1, h2⟩ := ih _ h
      obtain ⟨ha, hx⟩ := lor_eq_zero h1
      have hpe : p.1 = p.2 := by
        have h3 : p.1.val.toNat = p.2.val.toNat := Nat.xor_eq_zero.1 hx
        exact Char.eq_of_val_eq (UInt32.toNat.inj h3)
      refine ⟨ha, ?_⟩
      intro q hq
      rcases hq with _ | ⟨_, hq⟩
      · exact hpe
      · exact h2 q hq

lemma foldl_orXor_self :
    ∀ l : List Char,
      (l.zip l).foldl (fun r p => r ||| (p.1.toNat ^^^ p.2.toNat)) 0 = 0 := by
  intro l
  induction l with
  | nil => rfl
  | cons c cs ih =>
      rw [List.zip_cons_cons, List.foldl_cons]
      rw [show (0 ||| ((c, c).1.toNat ^^^ (c, c).2.toNat)) = 0 by simp]
      exact ih

lemma zip_pointwise_eq :
    ∀ (l1 l2 : List Char), l1.length = l2.length →
      (∀ p ∈ l1.zip l2, p.1 = p.2) → l1 = l2 := by
  intro l1
  induction l1 with
  | nil =>
      intro l2 hlen _
      cases l2 with
      | nil => rfl
      | cons _ _ => simp at hlen
  | cons c cs ih =>
      intro l2 hlen hall
      cases l2 with
      | nil => simp at hlen
      | cons d ds =>
          rw [List.zip_cons_cons] at hall
          have h1 : c = d := hall (c, d) (by simp)
          have h2 : cs = ds := by
            apply ih ds (by simpa using hlen)
            intro p hp
            exact hall p (by simp [hp])
          rw [h1, h2]

lemma timingSafeEqualHex_iff (a b : String) : timingSafeEqualHex a b = true ↔ a = b := by
  constructor
  · intro h
    rw [timingSafeEqualHex, Bool.and_eq_true] at h
    obtain ⟨hlen, hfold⟩ := h
    have hlen2 : a.data.length = b.data.length := by
      have h2 : a.length = b.length := by simpa using hlen
      exact h2
    have hfold1 : (a.toList.zip b.toList).foldl
        (fun r p => r ||| (p.1.toNat ^^^ p.2.toNat)) 0 = 0 := by simpa using hfold
    have hfold2 := (foldl_orXor_acc (a.toList.zip b.toList) 0 hfold1).2
    have hdata : a.data = b.data := zip_pointwise_eq a.data b.data hlen2 hfold2
    cases a
    cases b
    exact congrArg String.mk hdata
  · intro h
    subst h
    rw [timingSafeEqualHex, Bool.and_eq_true]
    constructor
    · simp
    · simpa using foldl_orXor_self a.toList

/-! ## Facts about the hex digest -/

lemma hexDigit_range : ∀ n, n < 16 →
    (48 ≤ (hexDigit n).toNat ∧ (hexDigit n).toNat ≤ 57) ∨
    (97 ≤ (hexDigit n).toNat ∧ (hexDigit n).toNat ≤ 102) := by decide

lemma bytesToHex_chars (bs : List Nat) :
    ∀ c ∈ (bytesToHex bs).toList,
      (48 ≤ c.toNat ∧ c.toNat ≤ 57) ∨ (97 ≤ c.toNat ∧ c.toNat ≤ 102) := by
  intro c hc
  have hc2 : c ∈ bs.flatMap byteToHex := hc
  obtain ⟨b, _, hcb⟩ := List.mem_flatMap.1 hc2
  rw [byteToHex] at hcb
  rcases hcb with _ | ⟨_, hcb⟩
  · exact hexDigit_range _ (Nat.mod_lt _ (by omega))
  · rcases hcb with _ | ⟨_, hcb⟩
    · exact hexDigit_range _ (Nat.mod_lt _ (by omega))
    · cases hcb

lemma hex_char_safe {c : Char}
    (h : (48 ≤ c.toNat ∧ c.toNat ≤ 57) ∨ (97 ≤ c.toNat ∧ c.toNat ≤ 102)) :
    (c ≠ ',' ∧ c ≠ '=') ∧ isJsSpace c = false := by
  refine ⟨⟨?_, ?_⟩, ?_⟩
  · rintro rfl; revert h; decide
  · rintro rfl; revert h; decide
  · simp only [isJsSpace, decide_eq_false_iff_not]
    push_neg
    refine ⟨?_, ?_, ?_, ?_, ?_, ?_⟩
    · rintro rfl; revert h; decide
    · rintro rfl; revert h; decide
    · rintro rfl; revert h; decide
    · rintro rfl; revert h; decide
    · omega
    · omega

lemma toBytesBE_length : ∀ k n, (toBytesBE k n).length = k := by
  intro k
  induction k with
  | zero => intro n; rfl
  | succ k ih =>
      intro n
      rw [toBytesBE, List.length_append, ih]
      simp

lemma flatMap_toBytesBE_length :
    ∀ l : List Nat, (l.flatMap (toBytesBE 4)).length = 4 * l.length := by
  intro l
  induction l with
  | nil => rfl
  | cons x xs ih =>
      rw [List.flatMap_cons, List.length_append, ih, toBytesBE_length]
      simp
      omega

lemma sha256Compress_length (H block : List Nat) (h : H.length = 8) :
    (sha256Compress H block).length = 8 := by
  rw [sha256Compress]
  simp [h]

lemma sha256BlocksGo_length :
    ∀ (fuel : Nat) (H msg : List Nat), H.length = 8 →
      (sha256BlocksGo fuel H msg).length = 8 := by
  intro fuel
  induction fuel with
  | zero =>
      intro H msg h
      cases msg <;> exact h
  | succ fuel ih =>
      intro H msg h
      cases msg with
      | nil => exact h
      | cons x rest => exact ih _ _ (sha256Compress_length _ _ h)

lemma sha256_length (msg : List Nat) : (sha256 msg).length = 32 := by
  rw [sha256, flatMap_toBytesBE_length, sha256Blocks,
    sha256BlocksGo_length _ _ _ (by rfl)]

lemma flatMap_byteToHex_length :
    ∀ bs : List Nat, (bs.flatMap byteToHex).length = 2 * bs.length := by
  intro bs
  induction bs with
  | nil => rfl
  | cons b rest ih =>
      rw [List.flatMap_cons, List.length_append, ih, byteToHex]
      simp
      omega

lemma hmacSHA256Bytes_length (key msg : List Nat) :
    (hmacSHA256Bytes key msg).length = 32 := by
  simp only [hmacSHA256Bytes]
  exact sha256_length _

lemma hmacSHA256_length (s d : String) : (hmacSHA256 s d).length = 64 := by
  have h1 : (hmacSHA256 s d).data =
      (hmacSHA256Bytes (strBytes s) (strBytes d)).flatMap byteToHex := rfl
  show (hmacSHA256 s d).data.length = 64
  rw [h1, flatMap_byteToHex_length, hmacSHA256Bytes_length]

/-- The digest the verifier compares against is header-safe: 64 lowercase
hex characters — nonempty, free of `,`/`=`, whitespace-free. -/
lemma hmacSHA256_header_safe (s d : String) :
    hmacSHA256 s d ≠ "" ∧
    (∀ c ∈ (hmacSHA256 s d).toList, c ≠ ',' ∧ c ≠ '=') ∧
    trimChars (hmacSHA256 s d).toList = (hmacSHA256 s d).toList := by
  have hchars : ∀ c ∈ (hmacSHA256 s d).toList,
      (48 ≤ c.toNat ∧ c.toNat ≤ 57) ∨ (97 ≤ c.toNat ∧ c.toNat ≤ 102) := by
    rw [hmacSHA256]
    exact bytesToHex_chars _
  refine ⟨?_, fun c hc => (hex_char_safe (hchars c hc)).1, ?_⟩
  · intro he
    have := hmacSHA256_length s d
    rw [he] at this
    simp at this
  · exact trimChars_eq_self _ fun c hc => (hex_char_safe (hchars c hc)).2

/-! ## Characterization of the verifier on well-formed headers -/

set_option maxHeartbeats 2000000 in
lemma verify_mkSigHeader (b s : String) (t : Nat) (v1 : String)
    (hv1ne : v1 ≠ "")
    (hv : ∀ c ∈ v1.toList, c ≠ ',' ∧ c ≠ '=')
    (htr : trimChars v1.toList = v1.toList)
    (ht : 1 ≤ t) (tol now : Int) :
    verifyStripeSignature b (mkSigHeader t v1) s tol now =
      if tol < |now - (t : Int)| then .error .staleTimestamp
      else if v1 = hmacSHA256 s (natStr t ++ "." ++ b) then .ok ()
      else .error .signatureMismatch := by
  rw [verifyStripeSignature, parseSigHeader_mk t v1 hv htr,
    lastLookup_pair_t, lastLookup_pair_v1, jsNumber_natStr]
  simp only [Option.getD_some]
  rw [if_neg (by
    rintro (h0 | h0)
    · have h1 : (t : Int) = 0 := h0
      omega
    · exact hv1ne h0)]
  simp only [pow_zero, mul_one, jsNumStr_natCast]
  by_cases hst : tol < |now - (t : Int)|
  · rw [if_pos hst, if_pos hst]
  · rw [if_neg hst, if_neg hst]
    by_cases heq : v1 = hmacSHA256 s (natStr t ++ "." ++ b)
    · rw [if_pos ((timingSafeEqualHex_iff _ _).2 heq.symm), if_pos heq]
    · rw [if_neg (fun hh => heq ((timingSafeEqualHex_iff _ _).1 hh).symm), if_neg heq]

/-! ## Store-primitive lemmas -/

lemma kvLookup_insert_self (k v : String) :
    ∀ l, kvLookup k (kvInsert k v l) = some v := by
  intro l
  induction l with
  | nil => simp [kvInsert, kvLookup]
  | cons p rest ih =>
      obtain ⟨k2, v2⟩ := p
      rw [kvInsert]
      split
      · simp [kvLookup]
      · next h => rw [kvLookup, if_neg h]; exact ih

lemma kvLookup_insert_ne {k k2 : String} (h : k2 ≠ k) (v : String) :
    ∀ l, kvLookup k (kvInsert k2 v l) = kvLookup k l := by
  intro l
  induction l with
  | nil => simp [kvInsert, kvLookup, h]
  | cons p rest ih =>
      obtain ⟨k3, v3⟩ := p
      rw [kvInsert]
      split
      · next h3 =>
          subst h3
          rw [kvLookup, if_neg h, kvLookup, if_neg h]
      · rw [kvLookup, kvLookup]
        split
        · rfl
        · exact ih

lemma kvGet_snd_data (st : Store) (k : String) : (kvGet st k).2.data = st.data := by
  rw [kvGet, Store.takeStep]
  rcases st.sched with _ | ⟨b, rest⟩
  · simp
  · simp only []
    split <;> rfl

lemma kvPut_spec (st : Store) (k v : String) :
    ((kvPut st k v).1 = .ok () ∧ (kvPut st k v).2.data = kvInsert k v st.data) ∨
    ((kvPut st k v).1 = .error () ∧ (kvPut st k v).2.data = st.data) := by
  rw [kvPut, Store.takeStep]
  rcases st.sched with _ | ⟨b, rest⟩
  · simp
  · rcases b <;> simp

/-- With an exhausted (all-success) schedule, `kvGet` reads the data. -/
lemma kvGet_ok (data : List (String × String)) (k : String) :
    kvGet ⟨data, []⟩ k = (.ok (kvLookup k data), ⟨data, []⟩) := rfl

lemma kvPut_ok (data : List (String × String)) (k v : String) :
    kvPut ⟨data, []⟩ k v = (.ok (), ⟨kvInsert k v data, []⟩) := rfl

/-! ## Key-distinctness lemmas -/

lemma dedupe_ne_gross (id : String) : DEDUPE_PREF ++ id ≠ GROSS_KEY := by
  intro h
  have h2 : (DEDUPE_PREF ++ id).data.head? = GROSS_KEY.data.head? := by rw [h]
  have he : (DEDUPE_PREF ++ id).data.head? = some 'e' := by
    rw [String.data_append]; rfl
  have ht : GROSS_KEY.data.head? = some 't' := rfl
  rw [he, ht] at h2
  exact absurd h2 (by decide)

lemma dedupe_ne_latest (id : String) : DEDUPE_PREF ++ id ≠ LATEST_KEY := by
  intro h
  have h2 : (DEDUPE_PREF ++ id).data.head? = LATEST_KEY.data.head? := by rw [h]
  have he : (DEDUPE_PREF ++ id).data.head? = some 'e' := by
    rw [String.data_append]; rfl
  have hl : LATEST_KEY.data.head? = some 'l' := rfl
  rw [he, hl] at h2
  exact absurd h2 (by decide)

lemma latest_ne_gross : LATEST_KEY ≠ GROSS_KEY := by decide

/-! ## Effect lemmas for the KV helpers and the handler -/

lemma kvGet_ok_val {st : Store} {k : String} {v : Option String}
    (h : (kvGet st k).1 = .ok v) : v = kvLookup k st.data := by
  rw [kvGet, Store.takeStep] at h
  rcases hs : st.sched with _ | ⟨b, rest⟩ <;> rw [hs] at h
  · simp at h
    exact h.symm
  · rcases b with _ | _
    · simp at h
    · simp at h
      exact h.symm

lemma markProcessed_data_cases (st : Store) (id : String) :
    (markProcessed st id).2.data = st.data ∨
    (markProcessed st id).2.data = kvInsert (DEDUPE_PREF ++ id) "1" st.data := by
  rw [markProcessed]
  rcases hg : (kvGet st (DEDUPE_PREF ++ id)).1 with e | v?
  · simp only [hg]
    left
    exact kvGet_snd_data st _
  · simp only [hg]
    split
    · left
      exact kvGet_snd_data st _
    · rcases kvPut_spec (kvGet st (DEDUPE_PREF ++ id)).2 (DEDUPE_PREF ++ id) "1" with
        ⟨_, hd⟩ | ⟨_, hd⟩
      · right
        rw [hd, kvGet_snd_data]
      · left
        rw [hd, kvGet_snd_data]

lemma markProcessed_lookup (st : Store) (id k : String) (hk : k ≠ DEDUPE_PREF ++ id) :
    kvLookup k (markProcessed st id).2.data = kvLookup k st.data := by
  rcases markProcessed_data_cases st id with hd | hd
  · rw [hd]
  · rw [hd, kvLookup_insert_ne (fun h => hk h.symm)]

lemma addCents_cases (st : Store) (c : ℚ) :
    ((addCents st c).1 = .error () ∧ (addCents st c).2.data = st.data) ∨
    ((addCents st c).1 = .ok () ∧
      (addCents st c).2.data = kvInsert GROSS_KEY (intStr (totalOf st + addDelta c)) st.data) := by
  rw [addCents]
  rcases hg : (kvGet st GROSS_KEY).1 with e | raw?
  · simp only [hg]
    left
    exact ⟨by trivial, kvGet_snd_data st _⟩
  · simp only [hg]
    have hraw : raw? = kvLookup GROSS_KEY st.data := kvGet_ok_val hg
    have htot : parseIntOr0 (raw?.getD "0") = totalOf st := by rw [hraw]; rfl
    rw [htot]
    rcases kvPut_spec (kvGet st GROSS_KEY).2 GROSS_KEY
        (intStr (totalOf st + addDelta c)) with ⟨h1, hd⟩ | ⟨h1, hd⟩
    · right
      refine ⟨h1, ?_⟩
      rw [hd, kvGet_snd_data]
    · left
      refine ⟨h1, ?_⟩
      rw [hd, kvGet_snd_data]

lemma putLatest_cases (st : Store) (n : String) (a : ℚ) (cs : String) :
    ((putLatest st n a cs).1 = ⟨500, "KV write failed"⟩ ∧
      (putLatest st n a cs).2.data = st.data) ∨
    ((putLatest st n a cs).1 = ⟨200, "ok"⟩ ∧
      (putLatest st n a cs).2.data = kvInsert LATEST_KEY (latestJson n a cs) st.data) := by
  rw [putLatest]
  rcases kvPut_spec st LATEST_KEY (latestJson n a cs) with ⟨h1, hd⟩ | ⟨h1, hd⟩
  · right
    simp only [h1]
    exact ⟨by trivial, hd⟩
  · left
    simp only [h1]
    exact ⟨by trivial, hd⟩

lemma putLatest_lookup_ne (st : Store) (n : String) (a : ℚ) (cs k : String)
    (hk : k ≠ LATEST_KEY) :
    kvLookup k (putLatest st n a cs).2.data = kvLookup k st.data := by
  rcases putLatest_cases st n a cs with ⟨_, hd⟩ | ⟨_, hd⟩
  · rw [hd]
  · rw [hd, kvLookup_insert_ne (fun h => hk h.symm)]

/-- `totalOf` only looks at the data. -/
lemma totalOf_data_eq {st st2 : Store} (h : st2.data = st.data) : totalOf st2 = totalOf st := by
  rw [totalOf, totalOf, h]

lemma totalOf_of_gross_lookup_eq {st st2 : Store}
    (h : kvLookup GROSS_KEY st2.data = kvLookup GROSS_KEY st.data) :
    totalOf st2 = totalOf st := by
  rw [totalOf, totalOf, h]

lemma addDelta_nonneg (c : ℚ) : 0 ≤ addDelta c := le_max_left 0 _

lemma addCents_total (st : Store) (c : ℚ) :
    totalOf (addCents st c).2 = totalOf st ∨
    totalOf (addCents st c).2 = totalOf st + addDelta c := by
  rcases addCents_cases st c with ⟨_, hd⟩ | ⟨_, hd⟩
  · left
    exact totalOf_data_eq hd
  · right
    rw [totalOf, hd, kvLookup_insert_self]
    simp only [Option.getD_some]
    exact parseIntOr0_intStr _

/-- Unfolded description of the charge branch when the currency gate is
closed: nothing but the latest-payment write happens. -/
lemma eventBranches_charge_not_aud (e : StripeEvent) (now : Int) (st : Store)
    (ht : e.type = "charge.succeeded")
    (hcur : asciiLower (e.obj.currency.getD "") ≠ "aud") :
    eventBranches e now st =
      putLatest st (jsOrStr e.obj.billingName "Unknown") (e.obj.amount.getD 0 / 100)
        (isoOf (e.created.getD now)) := by
  simp only [eventBranches, if_pos ht, if_neg hcur]

/-- Unfolded description of the charge branch when the currency gate is
open: `addCents`, then on success the latest-payment write. -/
lemma eventBranches_charge_aud (e : StripeEvent) (now : Int) (st : Store)
    (ht : e.type = "charge.succeeded")
    (hcur : asciiLower (e.obj.currency.getD "") = "aud") :
    eventBranches e now st =
      match (addCents st (e.obj.amount.getD 0)).1 with
      | .error _ => (⟨500, "KV write failed"⟩, (addCents st (e.obj.amount.getD 0)).2)
      | .ok _ =>
          putLatest (addCents st (e.obj.amount.getD 0)).2
            (jsOrStr e.obj.billingName "Unknown") (e.obj.amount.getD 0 / 100)
            (isoOf (e.created.getD now)) := by
  simp only [eventBranches, if_pos ht, if_pos hcur]

lemma eventBranches_pi (e : StripeEvent) (now : Int) (st : Store)
    (ht : e.type = "payment_intent.succeeded") :
    eventBranches e now st =
      putLatest st (jsOrStr e.obj.piChargeName (jsOrStr e.obj.shippingName "Unknown"))
        ((e.obj.amountReceived.orElse fun _ => e.obj.amount).getD 0 / 100)
        (isoOf (e.created.getD now)) := by
  have hne : e.type ≠ "charge.succeeded" := by rw [ht]; decide
  simp only [eventBranches, if_neg hne, if_pos ht]

lemma eventBranches_session (e : StripeEvent) (now : Int) (st : Store)
    (ht : e.type = "checkout.session.completed") :
    eventBranches e now st =
      putLatest st (jsOrStr e.obj.customerDetailsName (jsOrStr e.obj.customerName "Unknown"))
        (e.obj.amountTotal.getD 0 / 100) (isoOf (e.created.getD now)) := by
  have h1 : e.type ≠ "charge.succeeded" := by rw [ht]; decide
  have h2 : e.type ≠ "payment_intent.succeeded" := by rw [ht]; decide
  simp only [eventBranches, if_neg h1, if_neg h2, if_pos ht]

lemma eventBranches_other (e : StripeEvent) (now : Int) (st : Store)
    (h1 : e.type ≠ "charge.succeeded") (h2 : e.type ≠ "payment_intent.succeeded")
    (h3 : e.type ≠ "checkout.session.completed") :
    eventBranches e now st = (⟨200, "ignored"⟩, st) := by
  simp only [eventBranches, if_neg h1, if_neg h2, if_neg h3]

lemma eventBranches_gross (e : StripeEvent) (now : Int) (st : Store)
    (h : e.type ≠ "charge.succeeded") :
    kvLookup GROSS_KEY (eventBranches e now st).2.data = kvLookup GROSS_KEY st.data := by
  by_cases h2 : e.type = "payment_intent.succeeded"
  · rw [eventBranches_pi e now st h2]
    exact putLatest_lookup_ne _ _ _ _ _ latest_ne_gross.symm
  · by_cases h3 : e.type = "checkout.session.completed"
    · rw [eventBranches_session e now st h3]
      exact putLatest_lookup_ne _ _ _ _ _ latest_ne_gross.symm
    · rw [eventBranches_other e now st h h2 h3]

lemma eventBranches_total_mono (e : StripeEvent) (now : Int) (st : Store) :
    totalOf st ≤ totalOf (eventBranches e now st).2 := by
  by_cases ht : e.type = "charge.succeeded"
  · by_cases hcur : asciiLower (e.obj.currency.getD "") = "aud"
    · rw [eventBranches_charge_aud e now st ht hcur]
      rcases addCents_cases st (e.obj.amount.getD 0) with ⟨h1, hd⟩ | ⟨h1, hd⟩
      · simp only [h1]
        exact le_of_eq (totalOf_data_eq hd).symm
      · simp only [h1]
        have h2 : totalOf (addCents st (e.obj.amount.getD 0)).2 =
            totalOf st + addDelta (e.obj.amount.getD 0) := by
          rw [totalOf, hd, kvLookup_insert_self]
          simp only [Option.getD_some]
          exact parseIntOr0_intStr _
        have h3 : totalOf (putLatest (addCents st (e.obj.amount.getD 0)).2
            (jsOrStr e.obj.billingName "Unknown") (e.obj.amount.getD 0 / 100)
            (isoOf (e.created.getD now))).2 = totalOf (addCents st (e.obj.amount.getD 0)).2 :=
          totalOf_of_gross_lookup_eq
            (putLatest_lookup_ne _ _ _ _ _ latest_ne_gross.symm)
        rw [h3, h2]
        have := addDelta_nonneg (e.obj.amount.getD 0)
        omega
    · rw [eventBranches_charge_not_aud e now st ht hcur]
      exact le_of_eq (totalOf_of_gross_lookup_eq
        (putLatest_lookup_ne st _ _ _ _ latest_ne_gross.symm)).symm
  · exact le_of_eq (totalOf_of_gross_lookup_eq (eventBranches_gross e now st ht)).symm

lemma ingestEvent_missing_id (e : StripeEvent) (now : Int) (st : Store) (h : e.id = "") :
    ingestEvent e now st = (⟨400, "Missing event id"⟩, st) := by
  simp only [ingestEvent, if_pos h]

lemma ingestEvent_new (e : StripeEvent) (now : Int) (st : Store) (h : e.id ≠ "")
    (hm : (markProcessed st e.id).1 = true) :
    ingestEvent e now st = eventBranches e now (markProcessed st e.id).2 := by
  simp only [ingestEvent, if_neg h, hm]
  simp

lemma ingestEvent_dup (e : StripeEvent) (now : Int) (st : Store) (h : e.id ≠ "")
    (hm : (markProcessed st e.id).1 = false) :
    ingestEvent e now st = (⟨200, "duplicate"⟩, (markProcessed st e.id).2) := by
  simp only [ingestEvent, if_neg h, hm]
  simp

lemma ingestEvent_total_mono (e : StripeEvent) (now : Int) (st : Store) :
    totalOf st ≤ totalOf (ingestEvent e now st).2 := by
  by_cases hid : e.id = ""
  · rw [ingestEvent_missing_id e now st hid]
  · have hm : totalOf (markProcessed st e.id).2 = totalOf st :=
      totalOf_of_gross_lookup_eq
        (markProcessed_lookup st e.id _ (dedupe_ne_gross e.id).symm)
    rcases hb : (markProcessed st e.id).1 with _ | _
    · rw [ingestEvent_dup e now st hid hb]
      exact le_of_eq hm.symm
    · rw [ingestEvent_new e now st hid hb]
      calc totalOf st = totalOf (markProcessed st e.id).2 := hm.symm
        _ ≤ _ := eventBranches_total_mono e now _

lemma ingestEvent_gross (e : StripeEvent) (now : Int) (st : Store)
    (h : e.type ≠ "charge.succeeded") :
    kvLookup GROSS_KEY (ingestEvent e now st).2.data = kvLookup GROSS_KEY st.data := by
  by_cases hid : e.id = ""
  · rw [ingestEvent_missing_id e now st hid]
  · have hm := markProcessed_lookup st e.id GROSS_KEY (dedupe_ne_gross e.id).symm
    rcases hb : (markProcessed st e.id).1 with _ | _
    · rw [ingestEvent_dup e now st hid hb]
      exact hm
    · rw [ingestEvent_new e now st hid hb]
      rw [eventBranches_gross e now _ h, hm]

/-- Any key other than the latest-payment slot and the event's own dedup
marker is untouched by ingesting a non-charge event. -/
lemma ingestEvent_lookup_frame (e : StripeEvent) (now : Int) (st : Store) (k : String)
    (h : e.type ≠ "charge.succeeded") (hk1 : k ≠ LATEST_KEY)
    (hk2 : k ≠ DEDUPE_PREF ++ e.id) :
    kvLookup k (ingestEvent e now st).2.data = kvLookup k st.data := by
  by_cases hid : e.id = ""
  · rw [ingestEvent_missing_id e now st hid]
  · have hm := markProcessed_lookup st e.id k hk2
    rcases hb : (markProcessed st e.id).1 with _ | _
    · rw [ingestEvent_dup e now st hid hb]
      exact hm
    · rw [ingestEvent_new e now st hid hb]
      by_cases h2 : e.type = "payment_intent.succeeded"
      · rw [eventBranches_pi e now _ h2, putLatest_lookup_ne _ _ _ _ _ hk1, hm]
      · by_cases h3 : e.type = "checkout.session.completed"
        · rw [eventBranches_session e now _ h3, putLatest_lookup_ne _ _ _ _ _ hk1, hm]
        · rw [eventBranches_other e now _ h h2 h3]
          exact hm

/-! ## Claim theorems -/

/-- **C4.** The stored running total never decreases: a single ingestion,
and any fold of ingestions (events of any kind, currency or amount,
duplicates and malformed amounts included, over any store state and any
store-availability schedule), leaves `totalOf` no smaller than before. -/
theorem total_never_decreases :
    (∀ (e : StripeEvent) (now : Int) (st : Store),
      totalOf st ≤ totalOf (ingestEvent e now st).2) ∧
    (∀ (evs : List (StripeEvent × Int)) (st : Store),
      totalOf st ≤ totalOf (evs.foldl (fun s p => (ingestEvent p.1 p.2 s).2) st)) := by
  refine ⟨ingestEvent_total_mono, ?_⟩
  intro evs
  induction evs with
  | nil => intro st; exact le_refl _
  | cons p rest ih =>
      intro st
      calc totalOf st ≤ totalOf (ingestEvent p.1 p.2 st).2 := ingestEvent_total_mono _ _ _
        _ ≤ _ := ih _

/-- **C5.** `payment_intent.succeeded` and `checkout.session.completed`
ingestions never change the stored total and touch no key besides the
latest-payment slot and their own dedup marker; conversely, an ingestion
that changes the total can only be a `charge.succeeded` event. -/
theorem record_only_events_never_add :
    (∀ (e : StripeEvent) (now : Int) (st : Store),
      e.type = "payment_intent.succeeded" ∨ e.type = "checkout.session.completed" →
      kvLookup GROSS_KEY (ingestEvent e now st).2.data = kvLookup GROSS_KEY st.data ∧
      ∀ k, k ≠ LATEST_KEY → k ≠ DEDUPE_PREF ++ e.id →
        kvLookup k (ingestEvent e now st).2.data = kvLookup k st.data) ∧
    (∀ (e : StripeEvent) (now : Int) (st : Store),
      totalOf (ingestEvent e now st).2 ≠ totalOf st → e.type = "charge.succeeded") := by
  constructor
  · intro e now st htype
    have hne : e.type ≠ "charge.succeeded" := by
      rcases htype with h | h <;> · rw [h]; decide
    exact ⟨ingestEvent_gross e now st hne,
      fun k hk1 hk2 => ingestEvent_lookup_frame e now st k hne hk1 hk2⟩
  · intro e now st hch
    by_contra hne
    exact hch (totalOf_of_gross_lookup_eq (ingestEvent_gross e now st hne))

/-- **C5 witness instance.** A concrete `payment_intent.succeeded` ingest
leaves the total key untouched, and a concrete total-changing ingest is a
`charge.succeeded` event. -/
theorem record_only_events_never_add_witness :
    kvLookup GROSS_KEY
      (ingestEvent ⟨"evt_pi", "payment_intent.succeeded",
        { amountReceived := some ((700 : Nat) : ℚ), shippingName := some "B. Payer" },
        some 1700000001⟩ 1700000001 ⟨[], []⟩).2.data = kvLookup GROSS_KEY [] :=
  (record_only_events_never_add.1 _ 1700000001 ⟨[], []⟩ (Or.inl rfl)).1

/-- The concrete event and failure schedule exhibiting the C1 ordering bug:
`evt_1` is a signed, total-contributing charge; the store works for the
dedup get, the dedup put and the `addCents` get, and throws exactly at the
`addCents` put. -/
def c1Event : StripeEvent :=
  { id := "evt_1", type := "charge.succeeded",
    obj := { currency := some "aud", amount := some ((5000 : Nat) : ℚ),
             billingName := some "A. Payer" },
    created := some 1700000000 }

/-- **C1.** [exhibit of the code bug] The code orders the writes the other
way round from the claim: on a fresh total-contributing event the dedup
marker is written *before* the ledger mutation, so when the ledger write
throws (the 4th store operation here) the handler answers a retryable
`500` with the event already durably marked processed (`evt:evt_1 ↦ "1"`)
and the total still `0`; the retry of the identical event is then answered
`200 "duplicate"` and the total stays `0` — the payment is lost, where the
claim (and §7 of the design) demands the crash leave the event eligible
for reprocessing. -/
theorem marker_written_before_ledger_mutation :
    (ingestEvent c1Event 1700000000 ⟨[], [true, true, true, false]⟩).1 =
        ⟨500, "KV write failed"⟩ ∧
    kvLookup (DEDUPE_PREF ++ "evt_1")
        (ingestEvent c1Event 1700000000 ⟨[], [true, true, true, false]⟩).2.data = some "1" ∧
    totalOf (ingestEvent c1Event 1700000000 ⟨[], [true, true, true, false]⟩).2 = 0 ∧
    (ingestEvent c1Event 1700000000
        ⟨(ingestEvent c1Event 1700000000 ⟨[], [true, true, true, false]⟩).2.data, []⟩).1 =
      ⟨200, "duplicate"⟩ ∧
    totalOf (ingestEvent c1Event 1700000000
        ⟨(ingestEvent c1Event 1700000000 ⟨[], [true, true, true, false]⟩).2.data, []⟩).2 = 0 := by
  decide

/-- **C7.** The read path never fails: with the total key never written the
read returns the fallback `0` (the `?? "0"` default), and with the store
unreachable it returns the last-known visual fallback `988100` instead of
propagating the error (the function is total — every store state yields a
number). -/
theorem read_total_never_fails :
    (∀ data : List (String × String), kvLookup GROSS_KEY data = none →
      (readGrossAud ⟨data, []⟩).1 = 0) ∧
    (∀ (data : List (String × String)) (rest : List Bool),
      (readGrossAud ⟨data, false :: rest⟩).1 = 988100) := by
  constructor
  · intro data h
    rw [readGrossAud]
    rw [show kvGet ⟨data, []⟩ GROSS_KEY = (.ok (kvLookup GROSS_KEY data), ⟨data, []⟩) from rfl]
    rw [h]
    rfl
  · intro data rest
    rfl

/-- **C7 witness instance.** Fresh empty store: the total reads `0`;
unreachable store over arbitrary content: the total reads `988100`. -/
theorem read_total_never_fails_witness :
    (readGrossAud ⟨[], []⟩).1 = 0 ∧
    (readGrossAud ⟨[(GROSS_KEY, "123456")], [false]⟩).1 = 988100 :=
  ⟨read_total_never_fails.1 [] (by decide), read_total_never_fails.2 _ []⟩

/-- A fresh total-contributing charge used to show processing continues
after a failed dedup check. -/
def c8Event : StripeEvent :=
  { id := "evt_8", type := "charge.succeeded",
    obj := { currency := some "AUD", amount := some ((5000 : Nat) : ℚ),
             billingName := some "C. Payer" },
    created := some 1700000000 }

/-- **C8.** Deduplication fails open: if the store throws during the
already-applied check (first conjunct) or during the marker write (second
conjunct), `markProcessed` still reports "first time" (`true`); and
processing then continues — with the dedup get failing, a fresh
total-contributing charge is still fully applied and answered `200 "ok"`
(third conjunct). -/
theorem dedup_fails_open :
    (∀ (data : List (String × String)) (sched : List Bool) (id : String),
      (markProcessed ⟨data, false :: sched⟩ id).1 = true) ∧
    (∀ (data : List (String × String)) (sched : List Bool) (id : String),
      jsTruthyStr (kvLookup (DEDUPE_PREF ++ id) data) = false →
      (markProcessed ⟨data, true :: false :: sched⟩ id).1 = true) ∧
    ((ingestEvent c8Event 1700000000 ⟨[], [false]⟩).1 = ⟨200, "ok"⟩ ∧
      totalOf (ingestEvent c8Event 1700000000 ⟨[], [false]⟩).2 = 5000) := by
  refine ⟨fun _ _ _ => rfl, ?_, by decide⟩
  intro data sched id h
  rw [markProcessed]
  rw [show kvGet ⟨data, true :: false :: sched⟩ (DEDUPE_PREF ++ id) =
    (.ok (kvLookup (DEDUPE_PREF ++ id) data), ⟨data, false :: sched⟩) from rfl]
  simp [h]

/-- **C8 witness instance.** Marker write fails on a nonempty store: the
event is still reported new. -/
theorem dedup_fails_open_witness :
    (markProcessed ⟨[("x", "y")], [true, false]⟩ "evt_9").1 = true :=
  dedup_fails_open.2.1 [("x", "y")] [] "evt_9" (by decide)

/-! ## Single-run lemmas over a reachable store (empty schedule) -/

lemma markProcessed_ok_fresh (data : List (String × String)) (id : String)
    (h : jsTruthyStr (kvLookup (DEDUPE_PREF ++ id) data) = false) :
    markProcessed ⟨data, []⟩ id =
      (true, ⟨kvInsert (DEDUPE_PREF ++ id) "1" data, []⟩) := by
  rw [markProcessed]
  rw [show kvGet ⟨data, []⟩ (DEDUPE_PREF ++ id) =
    (.ok (kvLookup (DEDUPE_PREF ++ id) data), ⟨data, []⟩) from rfl]
  simp only [h]
  rfl

lemma markProcessed_dup (data : List (String × String)) (id : String)
    (h : jsTruthyStr (kvLookup (DEDUPE_PREF ++ id) data) = true) :
    markProcessed ⟨data, []⟩ id = (false, ⟨data, []⟩) := by
  rw [markProcessed]
  rw [show kvGet ⟨data, []⟩ (DEDUPE_PREF ++ id) =
    (.ok (kvLookup (DEDUPE_PREF ++ id) data), ⟨data, []⟩) from rfl]
  simp only [h]
  rfl

lemma addCents_ok (data : List (String × String)) (c : ℚ) :
    addCents ⟨data, []⟩ c =
      (.ok (), ⟨kvInsert GROSS_KEY (intStr (totalOf ⟨data, []⟩ + addDelta c)) data, []⟩) := rfl

lemma putLatest_ok (data : List (String × String)) (n : String) (a : ℚ) (cs : String) :
    putLatest ⟨data, []⟩ n a cs =
      (⟨200, "ok"⟩, ⟨kvInsert LATEST_KEY (latestJson n a cs) data, []⟩) := rfl

/-- Full description of one successful ingest of a fresh, aud-currency
`charge.succeeded` event over a reachable store: dedup marker written,
total bumped by the clamped delta, latest-payment record overwritten,
response `200 "ok"`. -/
lemma ingest_charge_aud_ok (e : StripeEvent) (now : Int) (data : List (String × String))
    (hid : e.id ≠ "")
    (hfresh : jsTruthyStr (kvLookup (DEDUPE_PREF ++ e.id) data) = false)
    (ht : e.type = "charge.succeeded")
    (hcur : asciiLower (e.obj.currency.getD "") = "aud") :
    ingestEvent e now ⟨data, []⟩ =
      (⟨200, "ok"⟩,
        ⟨kvInsert LATEST_KEY
            (latestJson (jsOrStr e.obj.billingName "Unknown") (e.obj.amount.getD 0 / 100)
              (isoOf (e.created.getD now)))
            (kvInsert GROSS_KEY (intStr (totalOf ⟨data, []⟩ + addDelta (e.obj.amount.getD 0)))
              (kvInsert (DEDUPE_PREF ++ e.id) "1" data)), []⟩) := by
  have hm := markProcessed_ok_fresh data e.id hfresh
  rw [ingestEvent_new e now _ hid (by rw [hm]), hm,
    eventBranches_charge_aud e now _ ht hcur, addCents_ok]
  have htot : totalOf ⟨kvInsert (DEDUPE_PREF ++ e.id) "1" data, []⟩ = totalOf ⟨data, []⟩ := by
    rw [totalOf, totalOf]
    simp only []
    rw [kvLookup_insert_ne (dedupe_ne_gross e.id)]
  rw [htot, putLatest_ok]

/-- Same, with the currency gate closed: marker written, latest-payment
record overwritten, total untouched. -/
lemma ingest_charge_not_aud_ok (e : StripeEvent) (now : Int) (data : List (String × String))
    (hid : e.id ≠ "")
    (hfresh : jsTruthyStr (kvLookup (DEDUPE_PREF ++ e.id) data) = false)
    (ht : e.type = "charge.succeeded")
    (hcur : asciiLower (e.obj.currency.getD "") ≠ "aud") :
    ingestEvent e now ⟨data, []⟩ =
      (⟨200, "ok"⟩,
        ⟨kvInsert LATEST_KEY
            (latestJson (jsOrStr e.obj.billingName "Unknown") (e.obj.amount.getD 0 / 100)
              (isoOf (e.created.getD now)))
            (kvInsert (DEDUPE_PREF ++ e.id) "1" data), []⟩) := by
  have hm := markProcessed_ok_fresh data e.id hfresh
  rw [ingestEvent_new e now _ hid (by rw [hm]), hm,
    eventBranches_charge_not_aud e now _ ht hcur, putLatest_ok]

/-- The clamp is the identity on in-range whole-cent amounts. -/
lemma addDelta_natCast (n : Nat) (h : n < 2147483648) : addDelta ((n : Nat) : ℚ) = n := by
  have h1 : ratTrunc ((n : Nat) : ℚ) = n := by
    rw [ratTrunc, Rat.num_natCast, Rat.den_natCast]
    simp
  rw [addDelta, toInt32, h1]
  rw [show (n : Int) % 4294967296 = n from Int.emod_eq_of_lt (by omega) (by omega)]
  rw [if_pos (by omega)]
  omega

/-- **C2.** Idempotency: the same total-contributing event (nonempty id,
`charge.succeeded`, aud currency, in-range whole-cent amount `n`), fresh
for the store, ingested twice sequentially with the store reachable:
the first call answers `200 "ok"` and raises the total by exactly `n`;
the second is caught at the dedup step and answers success — `200
"duplicate"`, not an error — leaving the total unchanged. -/
theorem ingest_twice_idempotent (e : StripeEvent) (now1 now2 : Int)
    (data : List (String × String)) (n : Nat)
    (hid : e.id ≠ "")
    (hfresh : jsTruthyStr (kvLookup (DEDUPE_PREF ++ e.id) data) = false)
    (ht : e.type = "charge.succeeded")
    (hcur : asciiLower (e.obj.currency.getD "") = "aud")
    (hamt : e.obj.amount = some ((n : Nat) : ℚ))
    (hn : n < 2147483648) :
    (ingestEvent e now1 ⟨data, []⟩).1 = ⟨200, "ok"⟩ ∧
    totalOf (ingestEvent e now1 ⟨data, []⟩).2 = totalOf ⟨data, []⟩ + n ∧
    (ingestEvent e now2 (ingestEvent e now1 ⟨data, []⟩).2).1 = ⟨200, "duplicate"⟩ ∧
    totalOf (ingestEvent e now2 (ingestEvent e now1 ⟨data, []⟩).2).2 =
      totalOf (ingestEvent e now1 ⟨data, []⟩).2 := by
  have h1 := ingest_charge_aud_ok e now1 data hid hfresh ht hcur
  have hdelta : addDelta (e.obj.amount.getD 0) = n := by
    rw [hamt]
    simp only [Option.getD_some]
    exact addDelta_natCast n hn
  have hmark2 : jsTruthyStr (kvLookup (DEDUPE_PREF ++ e.id)
      (ingestEvent e now1 ⟨data, []⟩).2.data) = true := by
    rw [h1]
    simp only []
    rw [kvLookup_insert_ne (dedupe_ne_latest e.id).symm,
      kvLookup_insert_ne (dedupe_ne_gross e.id).symm, kvLookup_insert_self]
    rfl
  have htot1 : totalOf (ingestEvent e now1 ⟨data, []⟩).2 = totalOf ⟨data, []⟩ + n := by
    rw [h1, totalOf]
    simp only []
    rw [kvLookup_insert_ne latest_ne_gross, kvLookup_insert_self]
    simp only [Option.getD_some]
    rw [parseIntOr0_intStr, hdelta]
  have hst1 : (ingestEvent e now1 ⟨data, []⟩).2 =
      ⟨(ingestEvent e now1 ⟨data, []⟩).2.data, []⟩ := by rw [h1]
  have h2 : ingestEvent e now2 (ingestEvent e now1 ⟨data, []⟩).2 =
      (⟨200, "duplicate"⟩, ⟨(ingestEvent e now1 ⟨data, []⟩).2.data, []⟩) := by
    rw [hst1, ingestEvent_dup _ _ _ hid (by rw [markProcessed_dup _ _ hmark2]),
      markProcessed_dup _ _ hmark2]
  refine ⟨by rw [h1], htot1, by rw [h2], ?_⟩
  rw [h2, hst1]

/-- Even with store failures anywhere, a mismatched-currency charge never
touches the total key: the currency gate keeps `addCents` from running at
all. -/
lemma ingestEvent_gross_charge_not_aud (e : StripeEvent) (now : Int) (st : Store)
    (ht : e.type = "charge.succeeded")
    (hcur : asciiLower (e.obj.currency.getD "") ≠ "aud") :
    kvLookup GROSS_KEY (ingestEvent e now st).2.data = kvLookup GROSS_KEY st.data := by
  by_cases hid : e.id = ""
  · rw [ingestEvent_missing_id e now st hid]
  · have hm := markProcessed_lookup st e.id GROSS_KEY (dedupe_ne_gross e.id).symm
    rcases hb : (markProcessed st e.id).1 with _ | _
    · rw [ingestEvent_dup e now st hid hb]
      exact hm
    · rw [ingestEvent_new e now st hid hb, eventBranches_charge_not_aud e now _ ht hcur,
        putLatest_lookup_ne _ _ _ _ _ latest_ne_gross.symm, hm]

/-- **C6.** A `charge.succeeded` event whose currency does not match the
target (case-insensitively) never changes the stored total — over any
store state and failure schedule — yet, when processed fresh over a
reachable store, it still overwrites the latest-payment record with the
event's payer name, amount and timestamp and answers `200 "ok"`. -/
theorem mismatched_currency_records_only :
    (∀ (e : StripeEvent) (now : Int) (st : Store),
      e.type = "charge.succeeded" → asciiLower (e.obj.currency.getD "") ≠ "aud" →
      kvLookup GROSS_KEY (ingestEvent e now st).2.data = kvLookup GROSS_KEY st.data) ∧
    (∀ (e : StripeEvent) (now : Int) (data : List (String × String)),
      e.id ≠ "" → jsTruthyStr (kvLookup (DEDUPE_PREF ++ e.id) data) = false →
      e.type = "charge.succeeded" → asciiLower (e.obj.currency.getD "") ≠ "aud" →
      kvLookup LATEST_KEY (ingestEvent e now ⟨data, []⟩).2.data =
        some (latestJson (jsOrStr e.obj.billingName "Unknown") (e.obj.amount.getD 0 / 100)
          (isoOf (e.created.getD now))) ∧
      (ingestEvent e now ⟨data, []⟩).1 = ⟨200, "ok"⟩) := by
  refine ⟨ingestEvent_gross_charge_not_aud, ?_⟩
  intro e now data hid hfresh ht hcur
  rw [ingest_charge_not_aud_ok e now data hid hfresh ht hcur]
  simp only []
  exact ⟨kvLookup_insert_self _ _ _, by trivial⟩

/-- **C6 witness instance.** A fresh USD charge for 7000 cents: total key
untouched, latest payment overwritten with payer "D. Payer", amount
`7000/100` and the event's timestamp, response `200 "ok"`. -/
theorem mismatched_currency_records_only_witness :
    kvLookup GROSS_KEY
        (ingestEvent ⟨"evt_6", "charge.succeeded",
          { currency := some "USD", amount := some ((7000 : Nat) : ℚ),
            billingName := some "D. Payer" }, some 1700000002⟩ 1700000002
          ⟨[(GROSS_KEY, "100")], []⟩).2.data = kvLookup GROSS_KEY [(GROSS_KEY, "100")] ∧
    kvLookup LATEST_KEY
        (ingestEvent ⟨"evt_6", "charge.succeeded",
          { currency := some "USD", amount := some ((7000 : Nat) : ℚ),
            billingName := some "D. Payer" }, some 1700000002⟩ 1700000002
          ⟨[(GROSS_KEY, "100")], []⟩).2.data =
      some (latestJson "D. Payer" (((7000 : Nat) : ℚ) / 100) (isoOf 1700000002)) :=
  ⟨mismatched_currency_records_only.1 _ 1700000002 ⟨[(GROSS_KEY, "100")], []⟩ rfl (by decide),
   (mismatched_currency_records_only.2 _ 1700000002 [(GROSS_KEY, "100")] (by decide)
     (by decide) rfl (by decide)).1⟩

/-- **C2 witness instance.** `evt_1`, a 5000-cent aud charge, ingested
twice into an empty store: first `200 "ok"` raising the total to `5000`,
then `200 "duplicate"` leaving it there. -/
theorem ingest_twice_idempotent_witness :
    (ingestEvent c1Event 1700000000 ⟨[], []⟩).1 = ⟨200, "ok"⟩ ∧
    totalOf (ingestEvent c1Event 1700000000 ⟨[], []⟩).2 = totalOf ⟨[], []⟩ + 5000 ∧
    (ingestEvent c1Event 1700000500 (ingestEvent c1Event 1700000000 ⟨[], []⟩).2).1 =
      ⟨200, "duplicate"⟩ ∧
    totalOf (ingestEvent c1Event 1700000500 (ingestEvent c1Event 1700000000 ⟨[], []⟩).2).2 =
      totalOf (ingestEvent c1Event 1700000000 ⟨[], []⟩).2 :=
  ingest_twice_idempotent c1Event 1700000000 1700000500 [] 5000 (by decide) (by decide)
    rfl rfl rfl (by decide)

/-! ## C9: zero and non-numeric timestamps are invalid headers -/

/-- **C9.** A signature header whose timestamp field parses to `0`
(`t=0,v1=<hex>`), or to a non-number (`t=abc,v1=<hex>`), or which lacks
the `t` field entirely (`v1=<hex>`), is rejected as `invalidHeader` — the
same failure as a missing timestamp — for every body, secret, tolerance
and clock, even though the `v1` field carries the digest that would match
the payload; in particular it is never classified as `staleTimestamp`. -/
theorem zero_or_nan_timestamp_is_invalid_header (b s : String) (tol now : Int) :
    verifyStripeSignature b (mkSigHeader 0 (hmacSHA256 s ("0." ++ b))) s tol now
        = .error .invalidHeader ∧
    verifyStripeSignature b ("t=abc,v1=" ++ hmacSHA256 s ("abc." ++ b)) s tol now
        = .error .invalidHeader ∧
    verifyStripeSignature b ("v1=" ++ hmacSHA256 s ("0." ++ b)) s tol now
        = .error .invalidHeader := by
  obtain ⟨hne1, hv1, htr1⟩ := hmacSHA256_header_safe s ("0." ++ b)
  obtain ⟨hne2, hv2, htr2⟩ := hmacSHA256_header_safe s ("abc." ++ b)
  refine ⟨?_, ?_, ?_⟩
  · rw [verifyStripeSignature, parseSigHeader_mk 0 _ hv1 htr1,
      lastLookup_pair_t, lastLookup_pair_v1, jsNumber_natStr]
    simp only [Option.getD_some]
    rw [if_pos (Or.inl (by decide))]
  · have hform : ("t=abc,v1=" ++ hmacSHA256 s ("abc." ++ b)) =
        "t=" ++ "abc" ++ ",v1=" ++ hmacSHA256 s ("abc." ++ b) :=
      congrArg (fun p => p ++ hmacSHA256 s ("abc." ++ b)) (by decide)
    rw [hform, verifyStripeSignature,
      parseSigHeader_fields "abc" _ (by decide) (by decide) hv2 htr2,
      lastLookup_pair_t, lastLookup_pair_v1,
      show jsNumber (some "abc") = none from by decide]
    simp only [Option.getD_none]
    rw [if_pos (Or.inl (by decide))]
  · rw [verifyStripeSignature, parseSigHeader_v1_only _ hv1 htr1,
      lastLookup_single_v1_t, show jsNumber none = none from rfl]
    simp only [Option.getD_none]
    rw [if_pos (Or.inl (by decide))]

/-! ## C3: signature validity -/

/-- A well-formed header whose `v1` differs from the expected digest is
rejected as a signature mismatch (timestamp in tolerance). -/
lemma verify_wrong_digest (b s : String) (t : Nat) (v1 : String)
    (hv1ne : v1 ≠ "")
    (hv : ∀ c ∈ v1.toList, c ≠ ',' ∧ c ≠ '=')
    (htr : trimChars v1.toList = v1.toList)
    (ht : 1 ≤ t) (tol now : Int)
    (hin : ¬ tol < |now - (t : Int)|)
    (hne : v1 ≠ hmacSHA256 s (natStr t ++ "." ++ b)) :
    verifyStripeSignature b (mkSigHeader t v1) s tol now = .error .signatureMismatch := by
  rw [verify_mkSigHeader b s t v1 hv1ne hv htr ht tol now, if_neg hin, if_neg hne]

/-- `c3Digest` really is the digest of `1700000000.x` under `k31458`. -/
lemma c3Digest_eq : hmacSHA256 "k31458" (natStr 1700000000 ++ "." ++ "x") = c3Digest := by
  decide

set_option maxHeartbeats 4000000 in
/-- Every single-bit corruption of the 64-character digest is nonempty,
free of `,` and `=`, trim-invariant, and different from the digest. -/
lemma c3Digest_flips_clean : ∀ i < 512,
    flipBitStr i c3Digest ≠ "" ∧
    (∀ c ∈ (flipBitStr i c3Digest).toList, c ≠ ',' ∧ c ≠ '=') ∧
    trimChars (flipBitStr i c3Digest).toList = (flipBitStr i c3Digest).toList ∧
    flipBitStr i c3Digest ≠ c3Digest := by
  decide

/-- **C3 counterexample.** The claimed equivalence quantifies over *every*
signing timestamp `t`, but at `t = 0` the header built from `t` and the
correct digest of `0.x` is rejected as `invalidHeader` even though
`|now - t| = 1000 ≤ 1800 = tol` (the `!t` guard of the source treats the
falsy timestamp `0` as missing). -/
theorem valid_signature_at_epoch_zero_rejected :
    |(1000 : Int) - (0 : Int)| ≤ 1800 ∧
    verifyStripeSignature "x" (mkSigHeader 0 (hmacSHA256 "k31458" (natStr 0 ++ "." ++ "x")))
        "k31458" 1800 1000 = .error .invalidHeader := by
  exact ⟨by decide, by decide⟩

set_option maxHeartbeats 1000000 in
/-- **C3 (amended).** For every body `b`, secret `s` and signing
timestamp `t ≥ 1` (JS `Number` truthiness makes `t = 0` an invalid
header, see the counterexample): verification of `b` against the header
built from `t` and the lowercase-hex HMAC-SHA256 of `t.b` under `s`
succeeds iff `|now - t| ≤ tol`; with tolerance `1800` a timestamp `3601`
seconds in the past is rejected as stale while `1799` seconds is
accepted; and at the concrete instance `b = "x"`, `s = "k31458"`,
`t = 1700000000`, every one of the 512 single-bit corruptions of the hex
digest and every one of the 8 single-bit corruptions of the body is
rejected as a signature mismatch. -/
theorem signature_validity_amended (b s : String) (t : Nat) (ht : 1 ≤ t) (tol now : Int) :
    (verifyStripeSignature b (mkSigHeader t (hmacSHA256 s (natStr t ++ "." ++ b))) s tol now
        = .ok () ↔ |now - (t : Int)| ≤ tol) ∧
    verifyStripeSignature b (mkSigHeader t (hmacSHA256 s (natStr t ++ "." ++ b))) s 1800
        ((t : Int) + 3601) = .error .staleTimestamp ∧
    verifyStripeSignature b (mkSigHeader t (hmacSHA256 s (natStr t ++ "." ++ b))) s 1800
        ((t : Int) + 1799) = .ok () ∧
    (∀ i < 512,
      verifyStripeSignature "x" (mkSigHeader 1700000000 (flipBitStr i c3Digest))
          "k31458" 1800 1700000000 = .error .signatureMismatch) ∧
    (∀ i < 8,
      verifyStripeSignature (flipBitStr i "x") (mkSigHeader 1700000000 c3Digest)
          "k31458" 1800 1700000000 = .error .signatureMismatch) := by
  obtain ⟨hdne, hdv, hdtr⟩ := hmacSHA256_header_safe s (natStr t ++ "." ++ b)
  have hmk := verify_mkSigHeader b s t _ hdne hdv hdtr ht
  refine ⟨?_, ?_, ?_, ?_, ?_⟩
  · rw [hmk tol now]
    by_cases hst : tol < |now - (t : Int)|
    · rw [if_pos hst]
      exact iff_of_false (fun h => Except.noConfusion h) (not_le.2 hst)
    · rw [if_neg hst,
        if_pos (show hmacSHA256 s (natStr t ++ "." ++ b) =
          hmacSHA256 s (natStr t ++ "." ++ b) from rfl)]
      exact iff_of_true rfl (not_lt.1 hst)
  · rw [hmk 1800 ((t : Int) + 3601),
      if_pos (show (1800 : Int) < |(t : Int) + 3601 - (t : Int)| by
        rw [add_sub_cancel_left]; decide)]
  · rw [hmk 1800 ((t : Int) + 1799),
      if_neg (show ¬ (1800 : Int) < |(t : Int) + 1799 - (t : Int)| by
        rw [add_sub_cancel_left]; decide),
      if_pos (show hmacSHA256 s (natStr t ++ "." ++ b) =
        hmacSHA256 s (natStr t ++ "." ++ b) from rfl)]
  · intro i hi
    obtain ⟨h1, h2, h3, h4⟩ := c3Digest_flips_clean i hi
    exact verify_wrong_digest "x" "k31458" 1700000000 _ h1 h2 h3 (by decide) 1800
      1700000000 (by decide) (by rw [c3Digest_eq]; exact h4)
  · decide

/-- **C3 amended witness.** Body `x`, secret `s3`, signed at `t = 1` and
checked at `now = 1` with tolerance `1800`: within tolerance, so the
equivalence yields acceptance. -/
theorem signature_validity_amended_witness :
    verifyStripeSignature "x" (mkSigHeader 1 (hmacSHA256 "s3" (natStr 1 ++ "." ++ "x")))
        "s3" 1800 1 = .ok () :=
  (signature_validity_amended "x" "s3" 1 (by decide) 1800 1).1.mpr (by decide)
